import Mathlib

/-!
# Assessment form: step partition, initial values, validation, progress

A shallow embedding of the assessment-taking logic of
`src/components/AssessmentForm.jsx`, of the handlers and effects of
`src/pages/AssessmentPage.jsx`, of the route guard and route table
(`src/components/ProtectedRoute.jsx`, `src/App.js`), of the interceptors of
`src/services/api.js` and of the choice handlers of the question editor
(`src/pages/AdminAssessmentPage.jsx`).

Modelling conventions.
* A JavaScript value stored in `answer_text` is a `JsVal`. Numbers are kept as
  integers: no function embedded here inspects a number beyond its runtime type.
* The arithmetic of the progress percentage is double precision arithmetic: the
  result of each operation is the exact result rounded to the nearest double.
* Question ids are JSON numbers, compared with `===`; they are `Int` here.
* React state is passed explicitly: an effect or handler is a function from the
  old state to the new state.
* `assessment` may be `null` while loading (`Option Assessment`); the question
  list of a loaded assessment is a list (the component renders a loading
  placeholder and calls none of the functions below while it is absent).
* An asynchronous handler is run to completion against the current page state;
  the outcome of the request it may issue is an argument, and the run records
  the requests issued and how the returned promise settles.
* Library behaviour is embedded by its contract: the built-in methods of
  strings and arrays, the submission of a Formik form (validate, then call
  `onSubmit` only without errors) and the content of the Formik context.
* Time is a number of milliseconds. The `debounce` of lodash is kept as the end
  of the window after the last call and the arguments of that call; the wrapped
  function runs when that time is reached.
-/

set_option autoImplicit false

namespace AssessmentForm

/-! ## JavaScript values -/

/-- A JavaScript value as it may appear in `answer_text`. `obj` stands for any
object that is not an array. -/
inductive JsVal where
  | undefined : JsVal
  | null : JsVal
  | bool (b : Bool) : JsVal
  | num (n : Int) : JsVal
  | str (s : String) : JsVal
  | arr (xs : List JsVal) : JsVal
  | obj : JsVal

namespace JsVal

/-- The test `Array.isArray(v)`. -/
def isArray : JsVal → Bool
  | arr _ => true
  | _ => false

/-- The test `typeof v === 'string'`. -/
def isString : JsVal → Bool
  | str _ => true
  | _ => false

/-- The `length` of an array; used only behind an `Array.isArray` guard. -/
def arrLength : JsVal → Nat
  | arr xs => xs.length
  | _ => 0

end JsVal

/-- White space and line terminators removed by `String.prototype.trim`. -/
def isJsWhitespace (c : Char) : Bool :=
  c.val = 0x09 || c.val = 0x0A || c.val = 0x0B || c.val = 0x0C || c.val = 0x0D ||
  c.val = 0x20 || c.val = 0xA0 || c.val = 0x1680 ||
  (0x2000 ≤ c.val && c.val ≤ 0x200A) ||
  c.val = 0x2028 || c.val = 0x2029 || c.val = 0x202F || c.val = 0x205F ||
  c.val = 0x3000 || c.val = 0xFEFF

/-- The method `s.trim()`: white space removed at both ends. -/
def jsTrim (s : String) : String :=
  String.mk ((s.data.dropWhile isJsWhitespace).reverse.dropWhile isJsWhitespace).reverse

/-- The pieces of a character list between commas; the empty input gives one
empty piece, as `''.split(',')` gives `['']`. -/
def splitComma : List Char → List (List Char)
  | [] => [[]]
  | c :: cs =>
    if c = ',' then [] :: splitComma cs
    else
      match splitComma cs with
      | [] => [[c]]
      | t :: ts => (c :: t) :: ts

/-- The method `s.split(',')`. -/
def jsSplit (s : String) : List String :=
  (splitComma s.data).map String.mk

/-- The method `xs.slice(start, stop)` for non-negative indices. -/
def slice {α : Type} (xs : List α) (start stop : Nat) : List α :=
  (xs.take stop).drop start

/-- The method `xs.findIndex(p)`; `none` stands for `-1`. -/
def findIndex {α : Type} (p : α → Bool) : List α → Option Nat
  | [] => none
  | x :: xs => if p x then some 0 else (findIndex p xs).map (· + 1)

/-! ## Data model -/

/-- A choice of a multiple-choice or checkbox question. -/
structure Choice where
  id : Int
  choice_text : String
  value : String

/-- A question of an assessment. `required` is the truthiness of the field. -/
structure Question where
  id : Int
  question_text : String
  question_type : String
  required : Bool
  choices : List Choice

/-- An assessment as returned by the assessment endpoint. -/
structure Assessment where
  id : Int
  questions : List Question

/-- A form answer: `{question, answer_text}`. Saved answers have the same shape. -/
structure Answer where
  question : Int
  answer_text : JsVal

/-- The Formik values of the form. -/
structure Values where
  email : String
  answers : List Answer

/-- A wizard step: the respondent-info step has `isUserInfo` and no questions,
a question step has questions and no `isUserInfo` (so it is falsy). -/
structure Step where
  title : String
  isUserInfo : Bool
  questions : Option (List Question)

/-! ## createInitialValues (lines 160-189) -/

/-- The assignment `answers[index].answer_text = v`. -/
def setAnswerText : List Answer → Nat → JsVal → List Answer
  | [], _, _ => []
  | a :: as, 0, v => { a with answer_text := v } :: as
  | a :: as, n + 1, v => a :: setAnswerText as n v

/-- The body of `savedAnswers.forEach` (lines 169-182). The lookup
`assessment.questions[index]` is in range because `answers` has one entry per
question. -/
def overlaySavedAnswer (assessment : Assessment) (answers : List Answer)
    (savedAnswer : Answer) : List Answer :=
  match findIndex (fun a => a.question == savedAnswer.question) answers with
  | none => answers
  | some index =>
    if (assessment.questions[index]?.any (fun q => q.question_type == "checkbox")) &&
        savedAnswer.answer_text.isString then
      match savedAnswer.answer_text with
      | JsVal.str s => setAnswerText answers index (JsVal.arr ((jsSplit s).map JsVal.str))
      | v => setAnswerText answers index v
    else
      setAnswerText answers index savedAnswer.answer_text

/-- The function `createInitialValues`. `savedAnswers` is `none` for `null`. -/
def createInitialValues (assessment : Assessment) (savedAnswers : Option (List Answer))
    (initialEmail : String) : Values :=
  let answers : List Answer := assessment.questions.map (fun q =>
    { question := q.id,
      answer_text := if q.question_type == "checkbox" then JsVal.arr [] else JsVal.str "" })
  let answers :=
    match savedAnswers with
    | none => answers
    | some saved => saved.foldl (overlaySavedAnswer assessment) answers
  { email := initialEmail, answers := answers }

/-! ## Step grouping effect (lines 131-157) -/

/-- The constant `questionsPerStep`. -/
def questionsPerStep : Nat := 3

/-- The loop `for (let i = 0; i < questions.length; i += questionsPerStep)`,
entered with the current `i` and the `questionSteps` pushed so far. -/
def questionStepsLoop (questions : List Question) (i : Nat)
    (questionSteps : List (List Question)) : List (List Question) :=
  if i < questions.length then
    questionStepsLoop questions (i + questionsPerStep)
      (questionSteps ++ [slice questions i (i + questionsPerStep)])
  else
    questionSteps
termination_by questions.length - i
decreasing_by
  simp only [questionsPerStep]
  omega

/-- The respondent-info step. -/
def userInfoStep : Step :=
  { title := "Your Information", isUserInfo := true, questions := none }

/-- The array passed to `setSteps` (lines 144-155). -/
def buildSteps (questions : List Question) : List Step :=
  userInfoStep ::
    (questionStepsLoop questions 0 []).mapIdx (fun index qs =>
      { title := "Section " ++ toString (index + 1), isUserInfo := false, questions := some qs })

/-- The step grouping effect: the new value of the `steps` state. Nothing is
set while the assessment is absent or has no questions. -/
def stepGroupingEffect (assessment : Option Assessment) (steps : List Step) : List Step :=
  match assessment with
  | none => steps
  | some a => if a.questions.length ≠ 0 then buildSteps a.questions else steps

/-- The initial value of the `steps` state, `useState([])`. -/
def initialSteps : List Step := []

/-! ## Step navigation (lines 218-233) -/

/-- The state update of `handleNext`. -/
def handleNext (steps : List Step) (prevStep : Int) : Int :=
  min (prevStep + 1) ((steps.length : Int) - 1)

/-- The state update of `handleBack`. -/
def handleBack (prevStep : Int) : Int :=
  max (prevStep - 1) 0

/-! ## FormProgress (lines 84-105) -/

/-- The test of lines 93-96, by cases on the runtime type: an array counts when
its length is positive, a string when its trimmed form is not the empty string,
no other value counts. -/
def isAnswered : JsVal → Bool
  | JsVal.arr xs => decide (xs.length > 0)
  | JsVal.str s => jsTrim s != ""
  | _ => false

/-- The counter `answeredQuestions` after the `forEach` of lines 92-99. -/
def countAnswered (answers : List Answer) : Nat :=
  answers.foldl (fun answeredQuestions answer =>
    if isAnswered answer.answer_text then answeredQuestions + 1 else answeredQuestions) 0

/-- The nearest integer to `x`, a tie going to the even neighbour: the rounding
of the significand in double precision arithmetic. -/
def roundHalfEven (x : ℚ) : Int :=
  if x - ⌊x⌋ < 1 / 2 then ⌊x⌋
  else if 1 / 2 < x - ⌊x⌋ then ⌊x⌋ + 1
  else if ⌊x⌋ % 2 = 0 then ⌊x⌋ else ⌊x⌋ + 1

/-- The double nearest to the exact value `x` of an operation on doubles, ties
to even: for `2 ^ e ≤ x < 2 ^ (e + 1)` the significand `x / 2 ^ (e - 52)` is rounded
to an integer of 53 bits. Values are non-negative here, and the exponent range is
not bounded, so that neither overflow nor subnormal numbers are modelled; the
counts of answers and questions are far from both. -/
def toDouble (x : ℚ) : ℚ :=
  if x ≤ 0 then 0
  else (roundHalfEven (x / (2 : ℚ) ^ (Int.log 2 x - 52)) : ℚ) * (2 : ℚ) ^ (Int.log 2 x - 52)

/-- The function `Math.round(x)` on a double: the nearest integer, halves rounded
up. -/
def mathRound (x : ℚ) : Int := ⌊x + 1 / 2⌋

/-- The percentage of line 101, `Math.round((answeredQuestions / totalQuestions) * 100)`,
in double precision: the quotient of the two counts is rounded to a double, and
so is its product with 100. The counts themselves and 100 are doubles.
`FormProgress` calls it with a positive `totalQuestions` only; the quotient by
zero, not a number in JavaScript, has no meaning here. -/
def percentOf (answeredQuestions totalQuestions : Nat) : Int :=
  mathRound (toDouble (toDouble ((answeredQuestions : ℚ) / (totalQuestions : ℚ)) * 100))

/-- The effect of `FormProgress`: the new value of the `progressPercent` state.
Nothing is set while the assessment is absent or has no questions. -/
def FormProgress (values : Values) (assessment : Option Assessment)
    (progressPercent : Int) : Int :=
  match assessment with
  | none => progressPercent
  | some a =>
    if a.questions.length = 0 then progressPercent
    else percentOf (countAnswered values.answers) a.questions.length

/-! ## Validation test of `answer_text` (lines 198-213) -/

/-- The test function of the `answer_text` schema: `question` is
`this.parent.question` and `value` the answer text under test. -/
def answerTextTest (assessment : Assessment) (question : Int) (value : JsVal) : Bool :=
  match assessment.questions.find? (fun q => q.id == question) with
  | none => true
  | some questionObj =>
    if !questionObj.required then true
    else if questionObj.question_type == "checkbox" then
      value.isArray && decide (value.arrLength > 0)
    else
      match value with
      | JsVal.undefined => false
      | JsVal.null => false
      | JsVal.str s => s != ""
      | _ => true

/-! ## goToStep (lines 229-233) -/

/-- The state update of `goToStep`: the requested index becomes the active step. -/
def goToStep (stepIndex : Int) : Int := stepIndex

/-- The active step after a click on each of the step buttons of lines 286-300:
button `index` calls `goToStep(index)`. -/
def stepButtonTargets (steps : List Step) : List Int :=
  steps.mapIdx (fun index _ => goToStep (index : Int))

/-! ## Submission payload (`src/pages/AssessmentPage.jsx`, lines 114-128) -/

mutual
/-- The method `xs.join(',')`: the pieces of the elements, separated by commas. -/
def jsJoin : List JsVal → String
  | [] => ""
  | [x] => joinPiece x
  | x :: y :: rest => joinPiece x ++ "," ++ jsJoin (y :: rest)
/-- The piece `join` writes for one element: nothing for `undefined` and `null`,
else the string conversion of the element (numbers are integers here). -/
def joinPiece : JsVal → String
  | JsVal.undefined => ""
  | JsVal.null => ""
  | JsVal.bool b => if b then "true" else "false"
  | JsVal.num n => toString n
  | JsVal.str s => s
  | JsVal.arr xs => jsJoin xs
  | JsVal.obj => "[object Object]"
end

/-- The body posted to the responses endpoint and to the partial-responses
endpoint: `{assessment, respondent_email, answers}`. -/
structure ResponseData where
  assessment : Int
  respondent_email : String
  answers : List Answer

/-- The map body of lines 120-125: an array answer text is joined with commas,
any other answer text is kept. -/
def serializeAnswer (answer : Answer) : Answer :=
  { question := answer.question,
    answer_text :=
      match answer.answer_text with
      | JsVal.arr xs => JsVal.str (jsJoin xs)
      | v => v }

/-- The object `responseData` of lines 117-126. -/
def responseData (assessment : Assessment) (values : Values) : ResponseData :=
  { assessment := assessment.id,
    respondent_email := values.email,
    answers := values.answers.map serializeAnswer }

/-! ## Page state and handlers (`src/pages/AssessmentPage.jsx`) -/

/-- A request sent through the API client. -/
inductive ApiCall where
  | submitResponse (data : ResponseData) : ApiCall
  | savePartialResponse (data : ResponseData) : ApiCall
  | getPartialResponse (assessmentId : Int) (email : String) : ApiCall

/-- A rejected request as the handlers read it: `err.response?.data?.detail`
and `err.message`. -/
structure ApiError where
  detail : Option String
  message : String

/-- The text `err.response?.data?.detail || err.message`. -/
def errorText (err : ApiError) : String :=
  match err.detail with
  | some d => if d = "" then err.message else d
  | none => err.message

/-- The message of the TypeError raised by `assessment.id` while `assessment` is
`null`. -/
def nullIdMessage : String := "Cannot read properties of null (reading 'id')"

/-- The state of `AssessmentPage` that its handlers read or write. A handler is
run against the current state. -/
structure PageState where
  assessment : Option Assessment
  error : Option String
  success : Bool
  saveProgress : Bool
  email : String

/-- How the promise returned by an asynchronous function settles. -/
inductive Settled where
  | resolved : Settled
  | rejected : Settled
  deriving DecidableEq

/-- What one run of a page handler leaves behind: the new page state, the
requests issued in order, whether the redirect to `/` was scheduled, and how the
returned promise settled. -/
structure HandlerRun where
  page : PageState
  calls : List ApiCall
  redirect : Bool
  settled : Settled

/-- The handler `handleSubmit` (lines 114-144); `result` is the outcome of the
`submitResponse` request, should it be issued. -/
def handleSubmit (page : PageState) (values : Values) (result : Except ApiError Unit) :
    HandlerRun :=
  match page.assessment with
  | none =>
    { page := { page with error := some ("Submission failed: " ++ nullIdMessage) },
      calls := [], redirect := false, settled := Settled.resolved }
  | some assessment =>
    match result with
    | Except.ok _ =>
      { page := { page with success := true },
        calls := [ApiCall.submitResponse (responseData assessment values)],
        redirect := true, settled := Settled.resolved }
    | Except.error err =>
      { page := { page with error := some ("Submission failed: " ++ errorText err) },
        calls := [ApiCall.submitResponse (responseData assessment values)],
        redirect := false, settled := Settled.resolved }

/-- The handler `handleSaveProgress` (lines 146-161); `result` is the outcome of
the `savePartialResponse` request, should it be issued. The guard reads the
`email` state of the page, and the `catch` block sets the page error and does
not rethrow, so the returned promise resolves on every path. -/
def handleSaveProgress (result : Except ApiError Unit) (page : PageState) (values : Values) :
    HandlerRun :=
  if page.email = "" then
    { page := page, calls := [], redirect := false, settled := Settled.resolved }
  else
    match page.assessment with
    | none =>
      { page := { page with error := some ("Could not save progress: " ++ nullIdMessage) },
        calls := [], redirect := false, settled := Settled.resolved }
    | some assessment =>
      let partialData : ResponseData :=
        { assessment := assessment.id, respondent_email := page.email,
          answers := values.answers }
      match result with
      | Except.ok _ =>
        { page := { page with saveProgress := true },
          calls := [ApiCall.savePartialResponse partialData],
          redirect := false, settled := Settled.resolved }
      | Except.error err =>
        { page := { page with error := some ("Could not save progress: " ++ errorText err) },
          calls := [ApiCall.savePartialResponse partialData],
          redirect := false, settled := Settled.resolved }

/-! ## Validation and submission of the form (lines 191-216, 245-250) -/

/-- A key of the Formik error object: `email` or `answers[index].answer_text`. -/
inductive FieldPath where
  | email : FieldPath
  | answerText (index : Nat) : FieldPath
  deriving DecidableEq

/-- The errors of the `email` schema of lines 193-195. `emailFormat` is the
pattern test of `Yup.string().email`, which is skipped on the empty string. -/
def emailErrors (emailFormat : String → Bool) (email : String) : List (FieldPath × String) :=
  if email = "" then [(FieldPath.email, "Email is required to save your progress")]
  else if emailFormat email then []
  else [(FieldPath.email, "Please enter a valid email address")]

/-- The errors of the `answers` schema of lines 196-215 for the answers from
position `index` on: one entry for every answer that fails the `required` test. -/
def answerErrors (assessment : Assessment) : List Answer → Nat → List (FieldPath × String)
  | [], _ => []
  | answer :: rest, index =>
    (if answerTextTest assessment answer.question answer.answer_text then []
     else [(FieldPath.answerText index, "This question requires an answer")]) ++
      answerErrors assessment rest (index + 1)

/-- The error map that `validationSchema` yields for the form values. -/
def validationSchema (assessment : Assessment) (emailFormat : String → Bool)
    (values : Values) : List (FieldPath × String) :=
  emailErrors emailFormat values.email ++ answerErrors assessment values.answers 0

/-- The submission of the `Formik` form of lines 245-250, `onSubmit` being the
`handleSubmit` of the page: Formik validates the values against
`validationSchema` and calls `onSubmit` only when the error map is empty. The
result is the error map and the run of the page. -/
def submitForm (assessment : Assessment) (emailFormat : String → Bool) (page : PageState)
    (values : Values) (result : Except ApiError Unit) :
    List (FieldPath × String) × HandlerRun :=
  let errors := validationSchema assessment emailFormat values
  if errors.isEmpty then (errors, handleSubmit page values result)
  else (errors, { page := page, calls := [], redirect := false, settled := Settled.resolved })

/-! ## AutoSave (lines 36-81, 331-334, 587) -/

/-- A save-progress callback: run against the page state with the form values. -/
abbrev OnSaveProgress : Type := PageState → Values → HandlerRun

/-- The object returned by `useFormikContext()`, with the two keys `AutoSave`
reads from it (line 60). -/
structure FormikContext where
  values : Values
  onSaveProgress : Option OnSaveProgress

/-- The context that the `Formik` element of lines 245-250 provides while the
form holds `values`. Formik builds it from the form state and its own helpers;
the element is given `initialValues`, `validationSchema`, `onSubmit` and
`enableReinitialize`, so the context has no key `onSaveProgress` and reading it
gives `undefined`. -/
def useFormikContext (values : Values) : FormikContext :=
  { values := values, onSaveProgress := none }

/-- The props of `AutoSave`: `debounceMs`, absent unless given, and the
`onSaveProgress` passed at lines 333 and 587. -/
structure AutoSaveProps where
  debounceMs : Option Nat
  onSaveProgress : Option OnSaveProgress

/-- The debounce window of an `AutoSave` element: `{ debounceMs = 1000 }`. -/
def debounceWindow (props : AutoSaveProps) : Nat :=
  props.debounceMs.getD 1000

/-- The state of an `AutoSave` element; `lastSaved` is a time stamp. -/
structure AutoSaveState where
  lastSaved : Option Nat
  isSaving : Bool

/-- The effect of `AutoSave` (lines 59-64) in the context `formik`: the
arguments of the call `debouncedSubmit(values, onSaveProgress)` it makes, if it
makes one. The component destructures `debounceMs` alone from its props, so
`props.onSaveProgress` is not read. -/
def autoSaveEffect (_props : AutoSaveProps) (formik : FormikContext) :
    Option (Values × OnSaveProgress) :=
  if formik.values.email = "" then none
  else
    match formik.onSaveProgress with
    | none => none
    | some onSaveProgress => some (formik.values, onSaveProgress)

/-- The function wrapped by `debounce` (lines 43-55), run when the timer fires
at time `now`: the new page state, the new `AutoSave` state and the requests
issued. -/
def debouncedSubmit (values : Values) (onSaveProgress : Option OnSaveProgress) (now : Nat)
    (page : PageState) (auto : AutoSaveState) : PageState × AutoSaveState × List ApiCall :=
  if values.email = "" then (page, auto, [])
  else
    match onSaveProgress with
    | none => (page, auto, [])
    | some save =>
      let run := save page values
      match run.settled with
      | Settled.resolved => (run.page, { lastSaved := some now, isSaving := false }, run.calls)
      | Settled.rejected => (run.page, { auto with isSaving := false }, run.calls)

/-- The `AutoSave` elements of `AssessmentForm` (lines 332-334 and 581-589) after
a change of the form values: rendered when `values.email && onSaveProgress`,
inside the Formik context, with `onSaveProgress` as a prop. The result is the
call of `debouncedSubmit` that the effect schedules, if any. -/
def autoSaveOnChange (values : Values) (onSaveProgress : Option OnSaveProgress) :
    Option (Values × OnSaveProgress) :=
  if values.email = "" then none
  else
    match onSaveProgress with
    | none => none
    | some save =>
      autoSaveEffect { debounceMs := none, onSaveProgress := some save } (useFormikContext values)

/-! ## Partial response lookup and countdown (`src/pages/AssessmentPage.jsx`) -/

/-- The effect of lines 79-99, run after `email` or `assessment` changed;
`result` is the outcome of the `getPartialResponse` request, should it be issued:
the list `response.data` or a failure. -/
def loadPartialResponse (result : Except ApiError (List ResponseData)) (page : PageState) :
    HandlerRun :=
  if page.email = "" then
    { page := page, calls := [], redirect := false, settled := Settled.resolved }
  else
    match page.assessment with
    | none => { page := page, calls := [], redirect := false, settled := Settled.resolved }
    | some assessment =>
      match result with
      | Except.ok data =>
        { page := if data.length > 0 then { page with saveProgress := true } else page,
          calls := [ApiCall.getPartialResponse assessment.id page.email],
          redirect := false, settled := Settled.resolved }
      | Except.error _ =>
        { page := page,
          calls := [ApiCall.getPartialResponse assessment.id page.email],
          redirect := false, settled := Settled.resolved }

/-- The initial values of the form that the page renders (lines 225-230): the
page passes neither `savedAnswers` nor `initialEmail` to `AssessmentForm`. -/
def renderedInitialValues (page : PageState) : Option Values :=
  page.assessment.map (fun assessment => createInitialValues assessment none "")

/-- The remaining time set by `fetchAssessment` (lines 37-40); a time limit of 0
stands for an absent one, and leaves the state `null`. -/
def initialTimeRemaining (time_limit_minutes : Nat) : Option Nat :=
  if time_limit_minutes = 0 then none else some (time_limit_minutes * 60)

/-- The updater passed to `setTimeRemaining` in the interval (lines 63-70). -/
def countdownUpdate (prevTime : Nat) : Nat :=
  if prevTime ≤ 1 then 0 else prevTime - 1

/-- The page together with its `timeRemaining` state. -/
structure TimedPage where
  page : PageState
  timeRemaining : Option Nat

/-- One run of the interval callback of lines 62-71: it calls `setTimeRemaining`
(and `clearInterval`) and nothing else. The result is the new state and the
requests issued. -/
def timerTick (s : TimedPage) : TimedPage × List ApiCall :=
  ({ s with timeRemaining := s.timeRemaining.map countdownUpdate }, [])

/-- The state after `k` runs of the interval callback. -/
def afterTicks : Nat → TimedPage → TimedPage
  | 0, s => s
  | k + 1, s => (timerTick (afterTicks k s)).1

/-! ## Route guard (`src/components/ProtectedRoute.jsx`) and routes (`src/App.js`) -/

/-- What a route element renders: a redirect or a page component. -/
inductive Rendered where
  | navigate (target : String) : Rendered
  | page (name : String) : Rendered
  deriving DecidableEq

/-- The flags of `useAuth()` that the guard reads. -/
structure Auth where
  isAuthenticated : Bool
  isAdmin : Bool

/-- The component `ProtectedRoute`; `requireAdmin` is `none` when the prop is
not given and then defaults to `false`. -/
def ProtectedRoute (auth : Auth) (requireAdmin : Option Bool) (children : Rendered) :
    Rendered :=
  if !auth.isAuthenticated then Rendered.navigate "/login"
  else if requireAdmin.getD false && !auth.isAdmin then Rendered.navigate "/"
  else children

/-- The `element` of a `Route` in `App.js`. -/
inductive RouteElement where
  | plain (page : String) : RouteElement
  | guarded (requireAdmin : Option Bool) (page : String) : RouteElement
  | redirect (target : String) : RouteElement
  deriving DecidableEq

/-- A `Route` of `App.js`. -/
structure Route where
  path : String
  element : RouteElement
  deriving DecidableEq

/-- The routes of `App.js` (lines 63-130), in order. -/
def routes : List Route :=
  [ { path := "/", element := RouteElement.plain "HomePage" },
    { path := "/login", element := RouteElement.plain "LoginPage" },
    { path := "/register", element := RouteElement.plain "RegisterPage" },
    { path := "/assessment/:id", element := RouteElement.plain "AssessmentPage" },
    { path := "/results", element := RouteElement.guarded none "ResultsPage" },
    { path := "/admin/users", element := RouteElement.guarded (some false) "UserManagement" },
    { path := "/admin/assessments",
      element := RouteElement.guarded (some true) "AdminAssessmentPage" },
    { path := "/admin/assessments/:id",
      element := RouteElement.guarded (some true) "AdminAssessmentPage" },
    { path := "/admin/dashboard",
      element := RouteElement.guarded (some true) "AdminDashboardPage" },
    { path := "/admin/stats", element := RouteElement.guarded (some true) "AssessmentStats" },
    { path := "/profile", element := RouteElement.guarded (some true) "AdminProfilePage" },
    { path := "*", element := RouteElement.redirect "/" } ]

/-- What the element of a route renders for the given authentication flags. -/
def renderElement (auth : Auth) : RouteElement → Rendered
  | RouteElement.plain page => Rendered.page page
  | RouteElement.guarded requireAdmin page =>
    ProtectedRoute auth requireAdmin (Rendered.page page)
  | RouteElement.redirect target => Rendered.navigate target

/-- The routes whose path starts with `/admin`. -/
def adminRoutes : List Route :=
  routes.filter (fun r => "/admin".data.isPrefixOf r.path.data)

/-! ## API client (`src/services/api.js`) -/

/-- The pieces of a character list between occurrences of `sep`, as `split`
with a one-character separator gives them. -/
def splitOnChar (sep : Char) : List Char → List (List Char)
  | [] => [[]]
  | c :: cs =>
    if c = sep then [] :: splitOnChar sep cs
    else
      match splitOnChar sep cs with
      | [] => [[c]]
      | t :: ts => (c :: t) :: ts

/-- The loop of lines 15-21 over the remaining cookies: the first cookie that,
trimmed, starts with `csrftoken=` gives the decoded rest and ends the loop.
`decodeURIComponent` fails with a URIError on a malformed escape; the failure is
`Except.error`. -/
def cookieLoop (decodeURIComponent : String → Except String String) :
    List String → Except String (Option String)
  | [] => Except.ok none
  | c :: cookies =>
    let cookie := jsTrim c
    if cookie.data.take ("csrftoken".length + 1) = ("csrftoken" ++ "=").data then
      match decodeURIComponent (String.mk (cookie.data.drop ("csrftoken".length + 1))) with
      | Except.ok value => Except.ok (some value)
      | Except.error e => Except.error e
    else cookieLoop decodeURIComponent cookies

/-- The function `getCsrfToken` on the cookie string `document.cookie`; `none`
is `null`. -/
def getCsrfToken (decodeURIComponent : String → Except String String)
    (documentCookie : String) : Except String (Option String) :=
  if documentCookie = "" then Except.ok none
  else cookieLoop decodeURIComponent ((splitOnChar ';' documentCookie.data).map String.mk)

/-- The user object kept under the key `user` of `localStorage`: the two tokens
and every other field. An absent or falsy token is the empty string. -/
structure StoredUser where
  token : String
  refreshToken : String
  rest : List (String × JsVal)

/-- The item `user` of `localStorage` as `JSON.parse` sees it: a text that does
not parse, a value without a refresh token to read, or a user object. -/
inductive StoredItem where
  | malformed : StoredItem
  | other : StoredItem
  | user (u : StoredUser) : StoredItem

/-- The fields of a request configuration that the interceptors read or write. -/
structure RequestConfig where
  method : String
  url : String
  _retry : Bool
  authorization : Option String
  csrfToken : Option String

/-- The request interceptor of lines 27-51: the `Authorization` header of a
logged-in user, and the `X-CSRFToken` header of a request that is not a GET.
The method is lower case when interceptors run. -/
def requestInterceptor (decodeURIComponent : String → Except String String)
    (storage : Option StoredItem) (documentCookie : String) (config : RequestConfig) :
    Except String RequestConfig :=
  let config :=
    match storage with
    | some (StoredItem.user u) =>
      if u.token = "" then config
      else { config with authorization := some ("Bearer " ++ u.token) }
    | _ => config
  if config.method = "get" then Except.ok config
  else
    match getCsrfToken decodeURIComponent documentCookie with
    | Except.error e => Except.error e
    | Except.ok none => Except.ok config
    | Except.ok (some csrfToken) =>
      if csrfToken = "" then Except.ok config
      else Except.ok { config with csrfToken := some csrfToken }

/-- A failed response as the response interceptor reads it:
`error.response?.status` and `error.config`. -/
structure ResponseError where
  status : Option Nat
  config : RequestConfig
  message : String

/-- The body of a successful refresh: `access` and `refresh`. -/
structure Tokens where
  access : String
  refresh : String

/-- The state outside the request that the response interceptor writes. -/
structure ClientState where
  storage : Option StoredItem
  location : Option String
  defaultAuthorization : Option String

/-- The error a rejected promise carries. -/
inductive Rejection where
  | original : Rejection
  | refreshError (message : String) : Rejection
  | syntaxError : Rejection

/-- How the response interceptor ends: it rejects, or it returns the replay
`api(originalRequest)` of the request. -/
inductive Interception where
  | reject (reason : Rejection) : Interception
  | replay (originalRequest : RequestConfig) : Interception

/-- What one run of the response interceptor leaves behind. -/
structure InterceptRun where
  client : ClientState
  originalRequest : RequestConfig
  refreshCalls : List String
  outcome : Interception

/-- The response interceptor of lines 58-104 on a failed response;
`refreshResult` is the outcome of the refresh request, should it be issued. -/
def responseErrorInterceptor (refreshResult : Except String Tokens) (client : ClientState)
    (error : ResponseError) : InterceptRun :=
  if error.status = some 401 ∧ error.config._retry = false then
    let originalRequest : RequestConfig := { error.config with _retry := true }
    match client.storage with
    | none =>
      { client := client, originalRequest := originalRequest, refreshCalls := [],
        outcome := Interception.reject Rejection.original }
    | some StoredItem.malformed =>
      { client := { client with storage := none, location := some "/login" },
        originalRequest := originalRequest, refreshCalls := [],
        outcome := Interception.reject Rejection.syntaxError }
    | some StoredItem.other =>
      { client := client, originalRequest := originalRequest, refreshCalls := [],
        outcome := Interception.reject Rejection.original }
    | some (StoredItem.user user) =>
      if user.refreshToken = "" then
        { client := client, originalRequest := originalRequest, refreshCalls := [],
          outcome := Interception.reject Rejection.original }
      else
        match refreshResult with
        | Except.ok refreshRes =>
          let updatedUser : StoredUser :=
            { user with token := refreshRes.access, refreshToken := refreshRes.refresh }
          let replayed : RequestConfig :=
            { originalRequest with authorization := some ("Bearer " ++ refreshRes.access) }
          { client := { client with
                          storage := some (StoredItem.user updatedUser),
                          defaultAuthorization := some ("Bearer " ++ refreshRes.access) },
            originalRequest := replayed, refreshCalls := [user.refreshToken],
            outcome := Interception.replay replayed }
        | Except.error refreshError =>
          { client := { client with storage := none, location := some "/login" },
            originalRequest := originalRequest, refreshCalls := [user.refreshToken],
            outcome := Interception.reject (Rejection.refreshError refreshError) }
  else
    { client := client, originalRequest := error.config, refreshCalls := [],
      outcome := Interception.reject Rejection.original }

/-! ## Question editor (`src/pages/AdminAssessmentPage.jsx`, lines 228-283) -/

/-- A choice in the question dialog; a choice not yet saved has no id. -/
structure ChoiceDraft where
  id : Option Int
  choice_text : String
  value : String

/-- The state `currentQuestion` of the question dialog. -/
structure QuestionDraft where
  id : Option Int
  question_text : String
  question_type : String
  required : Bool
  choices : List ChoiceDraft

/-- The `currentQuestion` that `handleOpenQuestionDialog` sets for a new
question (lines 236-241). -/
def newQuestionDraft : QuestionDraft :=
  { id := none, question_text := "", question_type := "text", required := true, choices := [] }

/-- The handler `addChoice`: the new choice takes `String(choices.length + 1)` as
its value. -/
def addChoice (currentQuestion : QuestionDraft) : QuestionDraft :=
  { currentQuestion with
    choices := currentQuestion.choices ++
      [{ id := none, choice_text := "",
         value := toString (currentQuestion.choices.length + 1) }] }

/-- The handler `removeChoice`: `splice(index, 1)` on a copy of the choices. -/
def removeChoice (currentQuestion : QuestionDraft) (index : Nat) : QuestionDraft :=
  { currentQuestion with choices := currentQuestion.choices.eraseIdx index }

/-- The remove button of a choice is enabled (line 707) unless at most two
choices are left. -/
def removeEnabled (currentQuestion : QuestionDraft) : Bool :=
  !decide (currentQuestion.choices.length ≤ 2)

/-! ## Notions of the specification used to state the validation claims -/

/-- The verdict of the validation test on `value` for a question of type
`question_type`, were that question required: the test run on the assessment
that holds just this question, marked required. -/
def acceptsWhenRequired (question_type : String) (value : JsVal) : Bool :=
  answerTextTest
    { id := 0,
      questions := [{ id := 0, question_text := "", question_type := question_type,
                      required := true, choices := [] }] }
    0 value

/-- A non-empty, non-null scalar: a string other than the empty string, a number
or a boolean. Arrays and other objects are not scalars. -/
def isNonEmptyScalar : JsVal → Bool
  | JsVal.str s => s != ""
  | JsVal.num _ => true
  | JsVal.bool _ => true
  | _ => false

/-! ## Example data -/

/-- A required checkbox question. -/
def demoCheckbox : Question :=
  { id := 1, question_text := "Which apply?", question_type := "checkbox", required := true,
    choices := [⟨1, "A", "a"⟩, ⟨2, "B", "b"⟩] }

/-- A required free-text question. -/
def demoText : Question :=
  { id := 2, question_text := "Why?", question_type := "text", required := true, choices := [] }

/-- An optional scale question. -/
def demoScale : Question :=
  { id := 3, question_text := "How much?", question_type := "scale", required := false,
    choices := [] }

/-- A required multiple-choice question. -/
def demoChoice : Question :=
  { id := 4, question_text := "Which one?", question_type := "multiple_choice",
    required := true, choices := [⟨3, "Yes", "yes"⟩, ⟨4, "No", "no"⟩] }

/-- An assessment of four questions. -/
def demoAssessment : Assessment :=
  { id := 7, questions := [demoCheckbox, demoText, demoScale, demoChoice] }

/-- A page on which the example assessment is loaded and an email was entered. -/
def demoPage : PageState :=
  { assessment := some demoAssessment, error := none, success := false,
    saveProgress := false, email := "a@b.co" }

/-- Form values for the example: the required text question is left blank. -/
def demoValues : Values :=
  { email := "a@b.co",
    answers := [⟨1, JsVal.arr [JsVal.str "a", JsVal.str "b"]⟩, ⟨2, JsVal.str ""⟩,
                ⟨3, JsVal.str "4"⟩, ⟨4, JsVal.str "yes"⟩] }

/-- A stored user with both tokens. -/
def demoUser : StoredUser :=
  { token := "old-access", refreshToken := "old-refresh",
    rest := [("email", JsVal.str "a@b.co"), ("isAdmin", JsVal.bool false),
             ("id", JsVal.num 3)] }

/-- A client whose storage holds the example user. -/
def demoClient : ClientState :=
  { storage := some (StoredItem.user demoUser), location := none,
    defaultAuthorization := none }

/-- A POST request that was answered with status 401 and was not replayed yet. -/
def demoExpired : ResponseError :=
  { status := some 401,
    config := { method := "post", url := "responses/", _retry := false,
                authorization := some "Bearer old-access", csrfToken := some "tok" },
    message := "Request failed with status code 401" }



/-- The value of the first cookie of the cookie string that, trimmed, starts
with `csrftoken=`, before decoding; `none` when there is no such cookie. -/
def firstCsrfCookie (documentCookie : String) : Option String :=
  (((splitOnChar ';' documentCookie.data).map (fun cs => jsTrim (String.mk cs))).find?
    (fun cookie => decide ("csrftoken=".data <+: cookie.data))).map
      (fun cookie => String.mk (cookie.data.drop 10))

/-- The example values once the text question is answered as well: every
question has an answer. -/
def demoValuesAnswered : Values :=
  { email := "a@b.co",
    answers := [⟨1, JsVal.arr [JsVal.str "a", JsVal.str "b"]⟩, ⟨2, JsVal.str "because"⟩,
                ⟨3, JsVal.str "4"⟩, ⟨4, JsVal.str "yes"⟩] }

/-- An assessment of one question, the required free-text question. -/
def demoTextOnly : Assessment :=
  { id := 8, questions := [demoText] }

/-! ## EmailChangeNotifier (lines 108-115) and the debounce timer of AutoSave -/

/-- The effect of `EmailChangeNotifier` with the page's `handleEmailChange` as
`onEmailChange`: a non-empty email of the form becomes the `email` state of the
page, an empty one is not passed on. -/
def emailChangeNotifier (email : String) (page : PageState) : PageState :=
  if email = "" then page else { page with email := email }

/-- Modelled from the spec: the function `debounce` of lodash, imported at line 34,
of which the repository holds the call `debounce(fn, debounceMs)` alone. The
specification has it turn a burst of calls into a single call after a window
without a further call, carrying the latest state; so a debounced function is
kept as the length of its window and, while a call is waiting, the time at which
the window after the last call ends together with the arguments of that call. -/
structure Debounced (α : Type) where
  wait : Nat
  waiting : Option (Nat × α)

/-- Modelled from the spec: a call of a debounced function at time `now`. The
arguments replace those of a call still waiting and the window starts again. -/
def debounceCall {α : Type} (d : Debounced α) (now : Nat) (args : α) : Debounced α :=
  { d with waiting := some (now + d.wait, args) }

/-- An `AutoSave` element on its page over time: the page state, the state of the
element, its debounced function, and the requests issued so far, each with the
time at which it was issued. -/
structure AutoSaveSession where
  page : PageState
  auto : AutoSaveState
  timer : Debounced (Values × OnSaveProgress)
  sent : List (Nat × ApiCall)

/-- An `AutoSave` element as it is mounted: nothing saved, no call waiting, and
the window `debounceMs` of its props. -/
def mountAutoSave (props : AutoSaveProps) (page : PageState) : AutoSaveSession :=
  { page := page, auto := { lastSaved := none, isSaving := false },
    timer := { wait := debounceWindow props, waiting := none }, sent := [] }

/-- Time passes up to `now`. When the window of a waiting call has ended by then,
the wrapped function `debouncedSubmit` has run once at the end of the window with
the arguments kept, and the requests it issued are recorded. -/
def elapse (now : Nat) (s : AutoSaveSession) : AutoSaveSession :=
  match s.timer.waiting with
  | none => s
  | some (deadline, values, onSaveProgress) =>
    if deadline ≤ now then
      let run := debouncedSubmit values (some onSaveProgress) deadline s.page s.auto
      { page := run.1, auto := run.2.1, timer := { s.timer with waiting := none },
        sent := s.sent ++ run.2.2.map (fun call => (deadline, call)) }
    else s

/-- A run of the effect of `AutoSave` (lines 59-64) at time `now` in the context
`formik`: the call of the debounced function that the effect makes, if it makes
one, is handed to the timer. -/
def runAutoSaveEffect (props : AutoSaveProps) (formik : FormikContext) (now : Nat)
    (s : AutoSaveSession) : AutoSaveSession :=
  match autoSaveEffect props formik with
  | none => elapse now s
  | some args => { elapse now s with timer := debounceCall (elapse now s).timer now args }

/-- A change of the form values of `AssessmentForm` at time `now`, seen from its
`AutoSave` element: the element is rendered and its effect runs as in
`autoSaveOnChange`. -/
def changeValues (values : Values) (onSaveProgress : Option OnSaveProgress) (now : Nat)
    (s : AutoSaveSession) : AutoSaveSession :=
  match autoSaveOnChange values onSaveProgress with
  | none => elapse now s
  | some args => { elapse now s with timer := debounceCall (elapse now s).timer now args }

/-! ## The overlay of saved answers, question by question -/

/-- The type-appropriate empty default of a question. -/
def emptyDefault (q : Question) : JsVal :=
  if q.question_type == "checkbox" then JsVal.arr [] else JsVal.str ""

/-- A saved value as it is shown for question `q`: a string saved for a checkbox
question is split on commas, every other value is kept. -/
def hydrate (q : Question) (v : JsVal) : JsVal :=
  if q.question_type == "checkbox" then
    match v with
    | JsVal.str s => JsVal.arr ((jsSplit s).map JsVal.str)
    | w => w
  else v

/-- The answer text the specification gives question `q`: the empty default when
no saved answer refers to `q`, else the hydrated value of the matching saved
answer (the last one, should several refer to `q`). -/
def expectedAnswerText (q : Question) (saved : List Answer) : JsVal :=
  match (saved.filter (fun sa => sa.question == q.id)).getLast? with
  | none => emptyDefault q
  | some sa => hydrate q sa.answer_text

/-- One `forEach` round seen from question `q`, whose current text is `cur`. -/
def overlayOne (q : Question) (cur : JsVal) (sa : Answer) : JsVal :=
  if sa.question == q.id then hydrate q sa.answer_text else cur

/-! ## Lemmas on createInitialValues -/

theorem map_question_setAnswerText (answers : List Answer) (index : Nat) (v : JsVal) :
    (setAnswerText answers index v).map (fun a => a.question) =
      answers.map (fun a => a.question) := by
  induction answers generalizing index with
  | nil => rfl
  | cons a rest ih =>
    cases index with
    | zero => simp [setAnswerText]
    | succ n => simp [setAnswerText, ih]

theorem map_question_overlaySavedAnswer (assessment : Assessment) (answers : List Answer)
    (savedAnswer : Answer) :
    (overlaySavedAnswer assessment answers savedAnswer).map (fun a => a.question) =
      answers.map (fun a => a.question) := by
  unfold overlaySavedAnswer
  split
  · rfl
  · split
    · split <;> exact map_question_setAnswerText _ _ _
    · exact map_question_setAnswerText _ _ _

theorem map_question_foldl_overlay (assessment : Assessment) (saved : List Answer)
    (answers : List Answer) :
    (saved.foldl (overlaySavedAnswer assessment) answers).map (fun a => a.question) =
      answers.map (fun a => a.question) := by
  induction saved generalizing answers with
  | nil => rfl
  | cons sa rest ih =>
    rw [List.foldl_cons, ih, map_question_overlaySavedAnswer]

theorem map_question_createInitialValues (assessment : Assessment)
    (savedAnswers : Option (List Answer)) (initialEmail : String) :
    (createInitialValues assessment savedAnswers initialEmail).answers.map (fun a => a.question) =
      assessment.questions.map (fun q => q.id) := by
  cases savedAnswers with
  | none => simp [createInitialValues, List.map_map, Function.comp_def]
  | some saved =>
    simp only [createInitialValues]
    rw [map_question_foldl_overlay]
    simp [List.map_map, Function.comp_def]

theorem getElem?_setAnswerText (answers : List Answer) (index j : Nat) (v : JsVal) :
    (setAnswerText answers index v)[j]? =
      if j = index then (answers[j]?).map (fun a => { a with answer_text := v })
      else answers[j]? := by
  induction answers generalizing index j with
  | nil => simp [setAnswerText]
  | cons a rest ih =>
    cases index with
    | zero =>
      cases j with
      | zero => simp [setAnswerText]
      | succ m => simp [setAnswerText]
    | succ n =>
      cases j with
      | zero => simp [setAnswerText]
      | succ m => simp [setAnswerText, ih]

theorem findIndex_eq_none {α : Type} {p : α → Bool} {l : List α}
    (h : findIndex p l = none) : ∀ a ∈ l, p a = false := by
  induction l with
  | nil => simp
  | cons x xs ih =>
    unfold findIndex at h
    by_cases hx : p x = true
    · simp [hx] at h
    · simp only [hx, Bool.false_eq_true, if_false, Option.map_eq_none'] at h
      intro a ha
      rcases List.mem_cons.mp ha with rfl | ha
      · simpa using hx
      · exact ih h a ha

theorem findIndex_eq_some {α : Type} {p : α → Bool} {l : List α} {i : Nat}
    (h : findIndex p l = some i) : ∃ a, l[i]? = some a ∧ p a = true := by
  induction l generalizing i with
  | nil => simp [findIndex] at h
  | cons x xs ih =>
    unfold findIndex at h
    by_cases hx : p x = true
    · simp only [hx, if_true, Option.some.injEq] at h
      subst h
      exact ⟨x, by simp, hx⟩
    · simp only [hx, Bool.false_eq_true, if_false, Option.map_eq_some'] at h
      obtain ⟨k, hk, rfl⟩ := h
      obtain ⟨a, ha, hpa⟩ := ih hk
      exact ⟨a, by simpa using ha, hpa⟩

theorem index_eq_of_question_eq {answers : List Answer}
    (hnd : (answers.map (fun a => a.question)).Nodup) {i j : Nat} {a b : Answer}
    (ha : answers[i]? = some a) (hb : answers[j]? = some b)
    (hab : a.question = b.question) : i = j := by
  have hi : (answers.map (fun a => a.question))[i]? = some a.question := by simp [ha]
  have hj : (answers.map (fun a => a.question))[j]? = some a.question := by simp [hb, hab]
  have hlt : i < (answers.map (fun a => a.question)).length := by
    by_contra hcon
    rw [List.getElem?_eq_none (by omega)] at hi
    cases hi
  exact List.getElem?_inj hlt hnd (hi.trans hj.symm)

theorem getElem?_overlaySavedAnswer (assessment : Assessment) (answers : List Answer)
    (sa : Answer)
    (hmap : answers.map (fun a => a.question) = assessment.questions.map (fun q => q.id))
    (hnd : (assessment.questions.map (fun q => q.id)).Nodup)
    {i : Nat} {q : Question} {a : Answer}
    (hq : assessment.questions[i]? = some q) (ha : answers[i]? = some a) :
    (overlaySavedAnswer assessment answers sa)[i]? =
      some { question := q.id, answer_text := overlayOne q a.answer_text sa } := by
  have haq : a.question = q.id := by
    have h1 := congrArg (fun l => l[i]?) hmap
    simp only [List.getElem?_map, ha, hq, Option.map_some'] at h1
    exact Option.some.inj h1
  have hnd2 : (answers.map (fun a => a.question)).Nodup := by rw [hmap]; exact hnd
  unfold overlaySavedAnswer
  cases hfi : findIndex (fun a => a.question == sa.question) answers with
  | none =>
    have hno := findIndex_eq_none hfi a (List.getElem?_mem ha)
    have hne : ¬ sa.question = q.id := by
      intro hcon
      simp [haq, hcon] at hno
    simp only [overlayOne, beq_iff_eq, hne, if_false, ha]
    cases a
    simp_all
  | some index =>
    obtain ⟨b, hb, hpb⟩ := findIndex_eq_some hfi
    have hbq : b.question = sa.question := by simpa using hpb
    by_cases hidx : i = index
    · subst hidx
      have hba : b = a := by
        rw [ha] at hb
        exact (Option.some.inj hb).symm
      subst hba
      have hsq : sa.question = q.id := by rw [← hbq, haq]
      simp only [hq, Option.any_some, overlayOne, hsq, beq_self_eq_true, if_true, hydrate]
      by_cases hcb : (q.question_type == "checkbox") = true
      · cases hv : sa.answer_text <;>
          simp [hcb, JsVal.isString, getElem?_setAnswerText, ha, haq]
      · simp [hcb, getElem?_setAnswerText, ha, haq]
    · have hne : ¬ sa.question = q.id := by
        intro hcon
        exact hidx (index_eq_of_question_eq hnd2 ha hb (by rw [haq, hbq, hcon]))
      have hget : ∀ v, (setAnswerText answers index v)[i]? = some a := by
        intro v
        rw [getElem?_setAnswerText, if_neg hidx, ha]
      have hres : some a = some { question := q.id, answer_text := overlayOne q a.answer_text sa } := by
        simp only [overlayOne, beq_iff_eq, hne, if_false]
        cases a
        simp_all
      rw [← hres]
      dsimp only
      split
      · split <;> exact hget _
      · exact hget _

theorem getElem?_foldl_overlay (assessment : Assessment)
    (hnd : (assessment.questions.map (fun q => q.id)).Nodup)
    (saved : List Answer) (answers : List Answer)
    (hmap : answers.map (fun a => a.question) = assessment.questions.map (fun q => q.id))
    {i : Nat} {q : Question} {a : Answer}
    (hq : assessment.questions[i]? = some q) (ha : answers[i]? = some a) :
    (saved.foldl (overlaySavedAnswer assessment) answers)[i]? =
      some { question := q.id, answer_text := saved.foldl (overlayOne q) a.answer_text } := by
  induction saved generalizing answers a with
  | nil =>
    have haq : a.question = q.id := by
      have h1 := congrArg (fun l => l[i]?) hmap
      simp only [List.getElem?_map, ha, hq, Option.map_some'] at h1
      exact Option.some.inj h1
    cases a
    simp_all
  | cons sa rest ih =>
    rw [List.foldl_cons, List.foldl_cons]
    exact ih (overlaySavedAnswer assessment answers sa)
      ((map_question_overlaySavedAnswer assessment answers sa).trans hmap)
      (getElem?_overlaySavedAnswer assessment answers sa hmap hnd hq ha)

theorem foldl_overlayOne_eq (q : Question) (saved : List Answer) :
    saved.foldl (overlayOne q) (emptyDefault q) = expectedAnswerText q saved := by
  induction saved using List.reverseRecOn with
  | nil => simp [expectedAnswerText]
  | append_singleton rest sa ih =>
    rw [List.foldl_append, List.foldl_cons, List.foldl_nil, ih]
    by_cases hsa : sa.question = q.id
    · simp [overlayOne, expectedAnswerText, List.filter_append, hsa]
    · simp [overlayOne, expectedAnswerText, List.filter_append, hsa]

/-! ## Lemmas on the step grouping loop and on navigation -/

theorem slice_step {α : Type} (xs : List α) (i : Nat) :
    slice xs i (i + questionsPerStep) = (xs.drop i).take 3 := by
  simp [slice, questionsPerStep, List.drop_take]

theorem questionStepsLoop_join (questions : List Question) (i : Nat)
    (questionSteps : List (List Question)) :
    (questionStepsLoop questions i questionSteps).flatten =
      questionSteps.flatten ++ questions.drop i := by
  generalize hk : questions.length - i = k
  induction k using Nat.strong_induction_on generalizing i questionSteps with
  | _ k ih =>
    subst hk
    rw [questionStepsLoop]
    split
    · next hlt =>
      rw [ih (questions.length - (i + questionsPerStep))
        (by simp only [questionsPerStep]; omega) _ _ rfl]
      rw [slice_step, List.flatten_append, List.flatten_singleton, List.append_assoc]
      congr 1
      simp only [questionsPerStep]
      rw [← List.drop_drop, List.take_append_drop]
    · next hge =>
      rw [List.drop_eq_nil_of_le (by omega), List.append_nil]

theorem questionStepsLoop_closed (questions : List Question) (i : Nat)
    (questionSteps : List (List Question)) :
    questionStepsLoop questions i questionSteps =
      questionSteps ++ (List.range ((questions.length - i + 2) / 3)).map
        (fun j => slice questions (i + 3 * j) (i + 3 * j + 3)) := by
  generalize hk : questions.length - i = k
  induction k using Nat.strong_induction_on generalizing i questionSteps with
  | _ k ih =>
    subst hk
    rw [questionStepsLoop]
    split
    · next hlt =>
      rw [ih (questions.length - (i + questionsPerStep))
        (by simp only [questionsPerStep]; omega) _ _ rfl]
      have hn : (questions.length - i + 2) / 3 =
          (questions.length - (i + questionsPerStep) + 2) / 3 + 1 := by
        simp only [questionsPerStep]; omega
      rw [hn, List.range_succ_eq_map, List.map_cons, List.map_map, List.append_assoc]
      simp only [questionsPerStep, List.singleton_append, Nat.mul_zero, Nat.add_zero]
      congr 2
      apply List.map_congr_left
      intro j _
      simp only [Function.comp_apply]
      congr 1 <;> omega
    · next hge =>
      have hn : (questions.length - i + 2) / 3 = 0 := by omega
      simp [hn]

theorem ceil_div_three (n : Nat) : ⌈(n : ℚ) / 3⌉₊ = (n + 2) / 3 := by
  apply le_antisymm
  · rw [Nat.ceil_le, div_le_iff₀ (by norm_num : (0 : ℚ) < 3)]
    have h : n ≤ (n + 2) / 3 * 3 := by omega
    exact_mod_cast h
  · have h1 : (n : ℚ) / 3 ≤ (⌈(n : ℚ) / 3⌉₊ : ℚ) := Nat.le_ceil _
    rw [div_le_iff₀ (by norm_num : (0 : ℚ) < 3)] at h1
    have h2 : n ≤ ⌈(n : ℚ) / 3⌉₊ * 3 := by exact_mod_cast h1
    omega

theorem questionStepsLoop_length (questions : List Question) :
    (questionStepsLoop questions 0 []).length = (questions.length + 2) / 3 := by
  simp [questionStepsLoop_closed]

theorem getElem?_questionStepsLoop (questions : List Question) (j : Nat) :
    (questionStepsLoop questions 0 [])[j]? =
      if j < (questions.length + 2) / 3 then some (slice questions (3 * j) (3 * j + 3))
      else none := by
  rw [questionStepsLoop_closed]
  simp only [List.nil_append, Nat.sub_zero, Nat.zero_add, List.getElem?_map]
  by_cases hj : j < (questions.length + 2) / 3
  · simp [hj, List.getElem?_range]
  · rw [if_neg hj, List.getElem?_eq_none (by simpa using hj)]
    rfl

theorem iterate_handleNext (steps : List Step) (hpos : 1 ≤ steps.length) (k : Nat) :
    (handleNext steps)^[k] 0 = min (k : Int) ((steps.length : Int) - 1) := by
  induction k with
  | zero =>
    simp only [Function.iterate_zero, id_eq, Nat.cast_zero]
    omega
  | succ n ih =>
    rw [Function.iterate_succ_apply', ih]
    simp only [handleNext, Nat.cast_add, Nat.cast_one]
    omega

theorem buildSteps_length (questions : List Question) :
    (buildSteps questions).length = 1 + (questions.length + 2) / 3 := by
  simp [buildSteps, questionStepsLoop_length, Nat.add_comm]

theorem stepGroupingEffect_of_ne_nil (a : Assessment) (steps : List Step)
    (hne : a.questions ≠ []) :
    stepGroupingEffect (some a) steps = buildSteps a.questions := by
  have : a.questions.length ≠ 0 := by simpa using hne
  simp [stepGroupingEffect, this]

theorem map_questions_buildSteps_tail (questions : List Question) :
    (buildSteps questions).tail.map (fun s => s.questions) =
      (questionStepsLoop questions 0 []).map some := by
  apply List.ext_getElem?
  intro j
  simp [buildSteps, List.getElem?_mapIdx]
  cases (questionStepsLoop questions 0 [])[j]? <;> rfl

theorem length_slice_step (questions : List Question) (j : Nat) :
    (slice questions (3 * j) (3 * j + 3)).length = min (3 * j + 3) questions.length - 3 * j := by
  simp [slice]

/-! ## Lemmas on the progress percentage -/

theorem foldl_count_eq (answers : List Answer) (n : Nat) :
    answers.foldl (fun answeredQuestions answer =>
      if isAnswered answer.answer_text then answeredQuestions + 1 else answeredQuestions) n =
      n + answers.countP (fun a => isAnswered a.answer_text) := by
  induction answers generalizing n with
  | nil => simp
  | cons a rest ih =>
    rw [List.foldl_cons, ih]
    by_cases ha : isAnswered a.answer_text = true
    · simp [ha, List.countP_cons]; omega
    · simp [ha, List.countP_cons]

theorem countAnswered_eq_countP (answers : List Answer) :
    countAnswered answers = answers.countP (fun a => isAnswered a.answer_text) := by
  simp [countAnswered, foldl_count_eq]

theorem floor_le_roundHalfEven (x : ℚ) : ⌊x⌋ ≤ roundHalfEven x := by
  unfold roundHalfEven
  split
  · exact le_refl _
  · split
    · omega
    · split <;> omega

theorem roundHalfEven_le_floor_succ (x : ℚ) : roundHalfEven x ≤ ⌊x⌋ + 1 := by
  unfold roundHalfEven
  split
  · omega
  · split
    · omega
    · split <;> omega

theorem roundHalfEven_intCast (n : Int) : roundHalfEven (n : ℚ) = n := by
  unfold roundHalfEven
  simp

theorem roundHalfEven_mono {x y : ℚ} (h : x ≤ y) : roundHalfEven x ≤ roundHalfEven y := by
  have hfl : ⌊x⌋ ≤ ⌊y⌋ := Int.floor_mono h
  rcases lt_or_eq_of_le hfl with hlt | heq
  · calc roundHalfEven x ≤ ⌊x⌋ + 1 := roundHalfEven_le_floor_succ x
      _ ≤ ⌊y⌋ := by omega
      _ ≤ roundHalfEven y := floor_le_roundHalfEven y
  · unfold roundHalfEven
    rw [heq]
    have hxy : x - (⌊y⌋ : ℚ) ≤ y - (⌊y⌋ : ℚ) := by linarith
    split
    · split
      · exact le_refl _
      · split
        · omega
        · split <;> omega
    · next hx1 =>
      split
      · next hx2 =>
        have hy1 : ¬ (y - (⌊y⌋ : ℚ) < 1 / 2) := by
          intro hc
          linarith
        have hy2 : 1 / 2 < y - (⌊y⌋ : ℚ) := by linarith
        rw [if_neg hy1, if_pos hy2]
      · next hx2 =>
        have hxe : x - (⌊y⌋ : ℚ) = 1 / 2 := by
          push_neg at hx1 hx2
          linarith
        have hy1 : ¬ (y - (⌊y⌋ : ℚ) < 1 / 2) := by
          intro hc
          linarith
        rw [if_neg hy1]
        by_cases hy2 : 1 / 2 < y - (⌊y⌋ : ℚ)
        · rw [if_pos hy2]
          split <;> omega
        · rw [if_neg hy2]

theorem two_zpow_pos (z : Int) : (0 : ℚ) < (2 : ℚ) ^ z := zpow_pos (by norm_num) z

theorem two_zpow_log_le (x : ℚ) (hx : 0 < x) : (2 : ℚ) ^ Int.log 2 x ≤ x := by
  have h := Int.zpow_log_le_self (R := ℚ) (b := 2) (by norm_num) hx
  simpa using h

theorem lt_two_zpow_log_succ (x : ℚ) : x < (2 : ℚ) ^ (Int.log 2 x + 1) := by
  have h := Int.lt_zpow_succ_log_self (R := ℚ) (b := 2) (by norm_num) x
  simpa using h

theorem log_two_eq (x : ℚ) (e : Int) (hlo : (2 : ℚ) ^ e ≤ x) (hhi : x < (2 : ℚ) ^ (e + 1)) :
    Int.log 2 x = e := by
  have hx : 0 < x := lt_of_lt_of_le (two_zpow_pos e) hlo
  have h1 : e ≤ Int.log 2 x := by
    rw [← Int.zpow_le_iff_le_log (R := ℚ) (b := 2) (by norm_num) hx]
    simpa using hlo
  have h2 : Int.log 2 x < e + 1 := by
    rw [← Int.lt_zpow_iff_log_lt (R := ℚ) (b := 2) (by norm_num) hx]
    simpa using hhi
  omega

theorem two_zpow_split (e : Int) : (2 : ℚ) ^ e = (2 : ℚ) ^ (52 : Int) * (2 : ℚ) ^ (e - 52) := by
  rw [← zpow_add₀ (by norm_num : (2 : ℚ) ≠ 0)]
  congr 1
  omega

theorem two_zpow_split_succ (e : Int) :
    (2 : ℚ) ^ (e + 1) = (2 : ℚ) ^ (53 : Int) * (2 : ℚ) ^ (e - 52) := by
  rw [← zpow_add₀ (by norm_num : (2 : ℚ) ≠ 0)]
  congr 1
  omega

theorem toDouble_of_pos (x : ℚ) (hx : 0 < x) :
    toDouble x =
      (roundHalfEven (x / (2 : ℚ) ^ (Int.log 2 x - 52)) : ℚ) * (2 : ℚ) ^ (Int.log 2 x - 52) := by
  unfold toDouble
  rw [if_neg (not_le.mpr hx)]

theorem toDouble_of_nonpos (x : ℚ) (hx : x ≤ 0) : toDouble x = 0 := by
  unfold toDouble
  rw [if_pos hx]

theorem two_zpow_log_le_toDouble (x : ℚ) (hx : 0 < x) :
    (2 : ℚ) ^ Int.log 2 x ≤ toDouble x := by
  rw [toDouble_of_pos x hx]
  have hu := two_zpow_pos (Int.log 2 x - 52)
  have h1 : (2 : ℚ) ^ (52 : Int) ≤ x / (2 : ℚ) ^ (Int.log 2 x - 52) := by
    rw [le_div_iff₀ hu, ← two_zpow_split]
    exact two_zpow_log_le x hx
  have h2 : roundHalfEven (((2 : Int) ^ (52 : Nat) : Int) : ℚ) ≤
      roundHalfEven (x / (2 : ℚ) ^ (Int.log 2 x - 52)) := by
    apply roundHalfEven_mono
    have : ((((2 : Int) ^ (52 : Nat) : Int)) : ℚ) = (2 : ℚ) ^ (52 : Int) := by norm_num
    rw [this]
    exact h1
  rw [roundHalfEven_intCast] at h2
  have h3 : ((((2 : Int) ^ (52 : Nat) : Int)) : ℚ) ≤
      (roundHalfEven (x / (2 : ℚ) ^ (Int.log 2 x - 52)) : ℚ) := by exact_mod_cast h2
  have h4 : ((((2 : Int) ^ (52 : Nat) : Int)) : ℚ) = (2 : ℚ) ^ (52 : Int) := by norm_num
  rw [h4] at h3
  calc (2 : ℚ) ^ Int.log 2 x = (2 : ℚ) ^ (52 : Int) * (2 : ℚ) ^ (Int.log 2 x - 52) :=
        two_zpow_split _
    _ ≤ _ := mul_le_mul_of_nonneg_right h3 hu.le

theorem toDouble_le_two_zpow_log_succ (x : ℚ) (hx : 0 < x) :
    toDouble x ≤ (2 : ℚ) ^ (Int.log 2 x + 1) := by
  rw [toDouble_of_pos x hx]
  have hu := two_zpow_pos (Int.log 2 x - 52)
  have h1 : x / (2 : ℚ) ^ (Int.log 2 x - 52) ≤ (2 : ℚ) ^ (53 : Int) := by
    rw [div_le_iff₀ hu, ← two_zpow_split_succ]
    exact (lt_two_zpow_log_succ x).le
  have h4 : ((((2 : Int) ^ (53 : Nat) : Int)) : ℚ) = (2 : ℚ) ^ (53 : Int) := by norm_num
  have h2 : roundHalfEven (x / (2 : ℚ) ^ (Int.log 2 x - 52)) ≤
      roundHalfEven (((2 : Int) ^ (53 : Nat) : Int) : ℚ) := by
    apply roundHalfEven_mono
    rw [h4]
    exact h1
  rw [roundHalfEven_intCast] at h2
  have h3 : (roundHalfEven (x / (2 : ℚ) ^ (Int.log 2 x - 52)) : ℚ) ≤
      ((((2 : Int) ^ (53 : Nat) : Int)) : ℚ) := by exact_mod_cast h2
  rw [h4] at h3
  calc _ ≤ (2 : ℚ) ^ (53 : Int) * (2 : ℚ) ^ (Int.log 2 x - 52) :=
        mul_le_mul_of_nonneg_right h3 hu.le
    _ = (2 : ℚ) ^ (Int.log 2 x + 1) := (two_zpow_split_succ _).symm

theorem toDouble_nonneg (x : ℚ) : 0 ≤ toDouble x := by
  rcases le_or_lt x 0 with hx | hx
  · rw [toDouble_of_nonpos x hx]
  · exact le_trans (two_zpow_pos _).le (two_zpow_log_le_toDouble x hx)

theorem toDouble_mono {x y : ℚ} (h : x ≤ y) : toDouble x ≤ toDouble y := by
  rcases le_or_lt x 0 with hx | hx
  · rw [toDouble_of_nonpos x hx]
    exact toDouble_nonneg y
  · have hy : 0 < y := lt_of_lt_of_le hx h
    have hlog : Int.log 2 x ≤ Int.log 2 y := Int.log_mono_right hx h
    rcases lt_or_eq_of_le hlog with hlt | heq
    · calc toDouble x ≤ (2 : ℚ) ^ (Int.log 2 x + 1) := toDouble_le_two_zpow_log_succ x hx
        _ ≤ (2 : ℚ) ^ Int.log 2 y := zpow_le_zpow_right₀ (by norm_num) (by omega)
        _ ≤ toDouble y := two_zpow_log_le_toDouble y hy
    · rw [toDouble_of_pos x hx, toDouble_of_pos y hy, heq]
      have hu := two_zpow_pos (Int.log 2 y - 52)
      apply mul_le_mul_of_nonneg_right _ hu.le
      have : roundHalfEven (x / (2 : ℚ) ^ (Int.log 2 y - 52)) ≤
          roundHalfEven (y / (2 : ℚ) ^ (Int.log 2 y - 52)) :=
        roundHalfEven_mono (div_le_div_of_nonneg_right h hu.le)
      exact_mod_cast this

theorem toDouble_eq_self (x : ℚ) (e m : Int) (hlo : (2 : ℚ) ^ e ≤ x)
    (hhi : x < (2 : ℚ) ^ (e + 1)) (hm : x = (m : ℚ) * (2 : ℚ) ^ (e - 52)) : toDouble x = x := by
  have hx : 0 < x := lt_of_lt_of_le (two_zpow_pos e) hlo
  rw [toDouble_of_pos x hx, log_two_eq x e hlo hhi]
  have hu := two_zpow_pos (e - 52)
  have hdiv : x / (2 : ℚ) ^ (e - 52) = (m : ℚ) := by
    rw [hm]
    field_simp
  rw [hdiv, roundHalfEven_intCast, ← hm]

theorem toDouble_one : toDouble 1 = 1 := by
  apply toDouble_eq_self 1 0 (2 ^ 52) <;> norm_num

theorem toDouble_hundred : toDouble 100 = 100 := by
  apply toDouble_eq_self 100 6 (100 * 2 ^ 46) <;> norm_num

theorem toDouble_quarter : toDouble (1 / 4) = 1 / 4 := by
  apply toDouble_eq_self (1 / 4) (-2) (2 ^ 52) <;> norm_num

theorem toDouble_twenty_five : toDouble 25 = 25 := by
  apply toDouble_eq_self 25 4 (25 * 2 ^ 48) <;> norm_num

theorem mathRound_mono {x y : ℚ} (h : x ≤ y) : mathRound x ≤ mathRound y := by
  unfold mathRound
  apply Int.floor_mono
  linarith

theorem percentOf_zero (totalQuestions : Nat) : percentOf 0 totalQuestions = 0 := by
  simp only [percentOf, Nat.cast_zero, zero_div, toDouble_of_nonpos 0 le_rfl, zero_mul, mathRound,
    zero_add]
  norm_num

theorem percentOf_self (totalQuestions : Nat) (hpos : 1 ≤ totalQuestions) :
    percentOf totalQuestions totalQuestions = 100 := by
  have hq : (totalQuestions : ℚ) ≠ 0 := by
    have : totalQuestions ≠ 0 := by omega
    exact_mod_cast this
  simp only [percentOf, div_self hq, toDouble_one, one_mul, toDouble_hundred, mathRound]
  rw [Int.floor_eq_iff]
  constructor <;> norm_num

theorem percentOf_mono (a b totalQuestions : Nat) (hab : a ≤ b) :
    percentOf a totalQuestions ≤ percentOf b totalQuestions := by
  unfold percentOf
  apply mathRound_mono
  apply toDouble_mono
  apply mul_le_mul_of_nonneg_right _ (by norm_num)
  apply toDouble_mono
  have h : (a : ℚ) ≤ (b : ℚ) := by exact_mod_cast hab
  gcongr

theorem percentOf_one_of_four : percentOf 1 4 = 25 := by
  have h1 : ((1 : Nat) : ℚ) / ((4 : Nat) : ℚ) = 1 / 4 := by norm_num
  have h2 : (1 / 4 : ℚ) * 100 = 25 := by norm_num
  simp only [percentOf, h1, toDouble_quarter, h2, toDouble_twenty_five, mathRound]
  rw [Int.floor_eq_iff]
  constructor <;> norm_num

theorem ne_empty_of_jsTrim_ne_empty (s : String) (h : jsTrim s ≠ "") : s ≠ "" := by
  intro hs
  subst hs
  exact h (by decide)

theorem roundHalfEven_eq_of_lt (x : ℚ) (m : Int) (hlo : (m : ℚ) - 1 / 2 < x)
    (hhi : x < (m : ℚ) + 1 / 2) : roundHalfEven x = m := by
  rcases lt_or_le x (m : ℚ) with hlt | hge
  · have hfl : ⌊x⌋ = m - 1 := by
      rw [Int.floor_eq_iff]
      push_cast
      constructor <;> linarith
    unfold roundHalfEven
    rw [hfl]
    push_cast
    rw [if_neg (by linarith), if_pos (by linarith)]
    omega
  · have hfl : ⌊x⌋ = m := by
      rw [Int.floor_eq_iff]
      constructor <;> linarith
    unfold roundHalfEven
    rw [hfl, if_pos (by linarith)]

theorem toDouble_eq_of_round (x : ℚ) (e m : Int) (hlo : (2 : ℚ) ^ e ≤ x)
    (hhi : x < (2 : ℚ) ^ (e + 1))
    (hm : roundHalfEven (x / (2 : ℚ) ^ (e - 52)) = m) :
    toDouble x = (m : ℚ) * (2 : ℚ) ^ (e - 52) := by
  have hx : 0 < x := lt_of_lt_of_le (two_zpow_pos e) hlo
  rw [toDouble_of_pos x hx, log_two_eq x e hlo hhi, hm]

/-- The quotient 23 / 40 rounds down in double precision, and so does its product
with 100: `Math.round((23 / 40) * 100)` is 57, where exact arithmetic gives 57.5
and so 58. -/
theorem percentOf_twenty_three_of_forty :
    percentOf 23 40 = 57 ∧ mathRound ((23 : ℚ) / 40 * 100) = 58 := by
  have h1 : toDouble ((23 : ℚ) / 40) = (5179139571476070 : Int) * (2 : ℚ) ^ ((-1 : Int) - 52) := by
    apply toDouble_eq_of_round
    · norm_num
    · norm_num
    · apply roundHalfEven_eq_of_lt <;> norm_num
  have h2 : toDouble ((5179139571476070 : Int) * (2 : ℚ) ^ ((-1 : Int) - 52) * 100) =
      (8092405580431359 : Int) * (2 : ℚ) ^ ((5 : Int) - 52) := by
    apply toDouble_eq_of_round
    · norm_num
    · norm_num
    · apply roundHalfEven_eq_of_lt <;> norm_num
  constructor
  · have h0 : ((23 : Nat) : ℚ) / ((40 : Nat) : ℚ) = (23 : ℚ) / 40 := by norm_num
    simp only [percentOf, h0, h1, h2, mathRound]
    rw [Int.floor_eq_iff]
    constructor <;> norm_num
  · simp only [mathRound]
    rw [Int.floor_eq_iff]
    constructor <;> norm_num

theorem trimmed_eq_nil_iff (p : Char → Bool) (l : List Char) :
    ((l.dropWhile p).reverse.dropWhile p).reverse = [] ↔ ∀ c ∈ l, p c = true := by
  rw [List.reverse_eq_nil_iff, List.dropWhile_eq_nil_iff]
  constructor
  · intro h
    have hnil : l.dropWhile p = [] := by
      by_contra hne
      have hhead := List.head_dropWhile_not p l hne
      have hmem : (l.dropWhile p).head hne ∈ (l.dropWhile p).reverse :=
        List.mem_reverse.mpr (List.head_mem hne)
      rw [h _ hmem] at hhead
      exact Bool.noConfusion hhead
    exact List.dropWhile_eq_nil_iff.mp hnil
  · intro h
    rw [List.dropWhile_eq_nil_iff.mpr h]
    intro c hc
    simp at hc

theorem jsTrim_eq_empty_iff (s : String) :
    jsTrim s = "" ↔ ∀ c ∈ s.data, isJsWhitespace c = true := by
  rw [← trimmed_eq_nil_iff]
  unfold jsTrim
  constructor
  · intro h
    have := congrArg String.data h
    simpa using this
  · intro h
    rw [h]

theorem isAnswered_str_iff (s : String) :
    isAnswered (JsVal.str s) = true ↔ ∃ c ∈ s.data, isJsWhitespace c = false := by
  simp only [isAnswered, bne_iff_ne, ne_eq, jsTrim_eq_empty_iff]
  push_neg
  constructor
  · rintro ⟨c, hc, hw⟩
    exact ⟨c, hc, by simpa using hw⟩
  · rintro ⟨c, hc, hw⟩
    exact ⟨c, hc, by simp [hw]⟩

theorem isAnswered_of_nonEmpty (v : JsVal)
    (h : (∃ x xs, v = JsVal.arr (x :: xs)) ∨
      ∃ s, v = JsVal.str s ∧ ∃ c ∈ s.data, isJsWhitespace c = false) :
    isAnswered v = true := by
  rcases h with ⟨x, xs, rfl⟩ | ⟨s, rfl, hs⟩
  · simp [isAnswered]
  · exact (isAnswered_str_iff s).mpr hs

theorem isAnswered_of_blank (v : JsVal)
    (h : v = JsVal.arr [] ∨ ∃ s, v = JsVal.str s ∧ ∀ c ∈ s.data, isJsWhitespace c = true) :
    isAnswered v = false := by
  rcases h with rfl | ⟨s, rfl, hs⟩
  · rfl
  · cases hv : isAnswered (JsVal.str s) with
    | false => rfl
    | true =>
      obtain ⟨c, hc, hw⟩ := (isAnswered_str_iff s).mp hv
      rw [hs c hc] at hw
      exact Bool.noConfusion hw

theorem autoSaveOnChange_eq_none (values : Values) (onSaveProgress : Option OnSaveProgress) :
    autoSaveOnChange values onSaveProgress = none := by
  unfold autoSaveOnChange
  split
  · rfl
  · cases onSaveProgress with
    | none => rfl
    | some save => simp [autoSaveEffect, useFormikContext]

theorem elapse_of_idle (now : Nat) (s : AutoSaveSession) (h : s.timer.waiting = none) :
    elapse now s = s := by
  unfold elapse
  rw [h]

theorem changeValues_eq_elapse (values : Values) (onSaveProgress : Option OnSaveProgress)
    (now : Nat) (s : AutoSaveSession) :
    changeValues values onSaveProgress now s = elapse now s := by
  unfold changeValues
  rw [autoSaveOnChange_eq_none]

/-! ## Lemmas on join and split -/


theorem jsJoin_cons_cons (x y : JsVal) (rest : List JsVal) :
    jsJoin (x :: y :: rest) = joinPiece x ++ "," ++ jsJoin (y :: rest) := by
  rw [jsJoin]

theorem intercalate_go_eq (acc a : String) (rest : List String) :
    String.intercalate.go (acc ++ a) "," rest =
      acc ++ jsJoin ((a :: rest).map JsVal.str) := by
  induction rest generalizing acc a with
  | nil => simp [String.intercalate.go, jsJoin, joinPiece]
  | cons b bs ih =>
    rw [String.intercalate.go]
    have h := ih (acc ++ a ++ ",") b
    rw [h]
    simp only [List.map_cons, jsJoin_cons_cons, joinPiece, String.append_assoc]

theorem jsJoin_map_str (tokens : List String) :
    jsJoin (tokens.map JsVal.str) = ",".intercalate tokens := by
  cases tokens with
  | nil => simp [jsJoin, String.intercalate]
  | cons a rest =>
    have h := intercalate_go_eq "" a rest
    simp only [String.empty_append] at h
    rw [String.intercalate, h]

theorem splitComma_of_not_mem (cs : List Char) (h : ',' ∉ cs) : splitComma cs = [cs] := by
  induction cs with
  | nil => rfl
  | cons c rest ih =>
    have hc : c ≠ ',' := fun e => h (by simp [e])
    have hr : ',' ∉ rest := fun e => h (by simp [e])
    simp [splitComma, hc, ih hr]

theorem splitComma_append_comma (cs rest : List Char) (h : ',' ∉ cs) :
    splitComma (cs ++ ',' :: rest) = cs :: splitComma rest := by
  induction cs with
  | nil => simp [splitComma]
  | cons c more ih =>
    have hc : c ≠ ',' := fun e => h (by simp [e])
    have hr : ',' ∉ more := fun e => h (by simp [e])
    simp [splitComma, hc, ih hr]

theorem jsSplit_jsJoin (tokens : List String) (hne : tokens ≠ [])
    (hcomma : ∀ t ∈ tokens, ',' ∉ t.data) :
    jsSplit (jsJoin (tokens.map JsVal.str)) = tokens := by
  induction tokens with
  | nil => exact absurd rfl hne
  | cons a rest ih =>
    cases rest with
    | nil =>
      simp [jsJoin, joinPiece, jsSplit, splitComma_of_not_mem _ (hcomma a (by simp))]
    | cons b bs =>
      have hrest := ih (by simp) (fun t ht => hcomma t (List.mem_cons_of_mem _ ht))
      simp only [List.map_cons] at hrest ⊢
      rw [jsJoin_cons_cons]
      simp only [jsSplit, joinPiece, String.data_append] at hrest ⊢
      rw [List.append_assoc, List.singleton_append,
        splitComma_append_comma _ _ (hcomma a (by simp)), List.map_cons, hrest]

/-! ## Lemmas on the validation of the form -/


theorem find?_of_nodup_ids (questions : List Question)
    (hnd : (questions.map (fun q => q.id)).Nodup) (i : Nat) (q : Question)
    (hq : questions[i]? = some q) :
    questions.find? (fun x => x.id == q.id) = some q := by
  induction questions generalizing i with
  | nil => simp at hq
  | cons x rest ih =>
    rw [List.map_cons, List.nodup_cons] at hnd
    cases i with
    | zero =>
      simp only [List.getElem?_cons_zero, Option.some.injEq] at hq
      subst hq
      simp
    | succ n =>
      simp only [List.getElem?_cons_succ] at hq
      have hmem : q.id ∈ rest.map (fun q => q.id) :=
        List.mem_map_of_mem _ (List.getElem?_mem hq)
      have hne : ¬ x.id = q.id := fun e => hnd.1 (e ▸ hmem)
      simp [List.find?_cons, hne, ih hnd.2 n hq]

theorem answerErrors_eq_nil (assessment : Assessment) (answers : List Answer) (index : Nat) :
    answerErrors assessment answers index = [] ↔
      ∀ a ∈ answers, answerTextTest assessment a.question a.answer_text = true := by
  induction answers generalizing index with
  | nil => simp [answerErrors]
  | cons a rest ih =>
    by_cases ha : answerTextTest assessment a.question a.answer_text = true
    · simp [answerErrors, ha, ih]
    · simp [answerErrors, ha]

theorem answerErrors_single (assessment : Assessment) (answers : List Answer) (index i : Nat)
    (a : Answer) (ha : answers[i]? = some a)
    (hfail : answerTextTest assessment a.question a.answer_text = false)
    (hothers : ∀ (j : Nat) (b : Answer), j ≠ i → answers[j]? = some b →
      answerTextTest assessment b.question b.answer_text = true) :
    answerErrors assessment answers index =
      [(FieldPath.answerText (index + i), "This question requires an answer")] := by
  induction answers generalizing index i with
  | nil => simp at ha
  | cons x rest ih =>
    cases i with
    | zero =>
      simp only [List.getElem?_cons_zero, Option.some.injEq] at ha
      subst ha
      have hrest : answerErrors assessment rest (index + 1) = [] := by
        rw [answerErrors_eq_nil]
        intro b hb
        obtain ⟨n, hn⟩ := List.getElem?_of_mem hb
        exact hothers (n + 1) b (by omega) (by simpa using hn)
      simp [answerErrors, hfail, hrest]
    | succ n =>
      simp only [List.getElem?_cons_succ] at ha
      have hx : answerTextTest assessment x.question x.answer_text = true :=
        hothers 0 x (by omega) (by simp)
      have hrest := ih (index + 1) n ha (fun j b hj hb =>
        hothers (j + 1) b (by omega) (by simpa using hb))
      simp only [answerErrors, hx, if_true, List.nil_append, hrest]
      congr 3
      omega

/-! ## Lemmas on the countdown -/


theorem afterTicks_page (k : Nat) (s : TimedPage) : (afterTicks k s).page = s.page := by
  induction k with
  | zero => rfl
  | succ n ih => simpa [afterTicks, timerTick] using ih

theorem afterTicks_timeRemaining (k : Nat) (page : PageState) (n : Nat) :
    (afterTicks k { page := page, timeRemaining := some n }).timeRemaining = some (n - k) := by
  induction k with
  | zero => rfl
  | succ j ih =>
    simp only [afterTicks, timerTick, ih, Option.map_some', countdownUpdate]
    congr 1
    split <;> omega

/-! ## Lemmas on the API client -/

theorem take_eq_iff_csrf_start (cs : List Char) :
    cs.take ("csrftoken".length + 1) = ("csrftoken" ++ "=").data ↔
      "csrftoken=".data <+: cs := by
  have h1 : ("csrftoken" ++ "=").data = "csrftoken=".data := by decide
  have h2 : "csrftoken".length + 1 = ("csrftoken=".data).length := by decide
  rw [h1, h2, List.prefix_iff_eq_take]
  exact eq_comm

theorem cookieLoop_eq (decodeURIComponent : String → Except String String)
    (cookies : List String) :
    cookieLoop decodeURIComponent cookies =
      match ((cookies.map jsTrim).find?
          (fun cookie => decide ("csrftoken=".data <+: cookie.data))).map
            (fun cookie => String.mk (cookie.data.drop 10)) with
      | none => Except.ok none
      | some raw =>
        match decodeURIComponent raw with
        | Except.ok value => Except.ok (some value)
        | Except.error e => Except.error e := by
  induction cookies with
  | nil => rfl
  | cons c rest ih =>
    by_cases hp : "csrftoken=".data <+: (jsTrim c).data
    · have ht := (take_eq_iff_csrf_start (jsTrim c).data).mpr hp
      simp only [cookieLoop, ht, if_true, List.map_cons, List.find?_cons, hp, decide_True,
        Option.map_some']
      rfl
    · have ht : ¬ (jsTrim c).data.take ("csrftoken".length + 1) = ("csrftoken" ++ "=").data :=
        fun h => hp ((take_eq_iff_csrf_start (jsTrim c).data).mp h)
      simp only [cookieLoop, ht, if_false, List.map_cons, List.find?_cons, hp, decide_False]
      exact ih

theorem firstCsrfCookie_empty : firstCsrfCookie "" = none := by decide

theorem requestInterceptor_csrf_step (decodeURIComponent : String → Except String String)
    (storage : Option StoredItem) (documentCookie : String) (config : RequestConfig) :
    ∃ withAuth : RequestConfig,
      withAuth.method = config.method ∧ withAuth.csrfToken = config.csrfToken ∧
        requestInterceptor decodeURIComponent storage documentCookie config =
          if withAuth.method = "get" then Except.ok withAuth
          else
            match getCsrfToken decodeURIComponent documentCookie with
            | Except.error e => Except.error e
            | Except.ok none => Except.ok withAuth
            | Except.ok (some csrfToken) =>
              if csrfToken = "" then Except.ok withAuth
              else Except.ok { withAuth with csrfToken := some csrfToken } := by
  rcases storage with _ | _ | _ | u
  · exact ⟨config, rfl, rfl, rfl⟩
  · exact ⟨config, rfl, rfl, rfl⟩
  · exact ⟨config, rfl, rfl, rfl⟩
  · by_cases hu : u.token = ""
    · refine ⟨config, rfl, rfl, ?_⟩
      simp only [requestInterceptor, hu, if_true]
    · refine ⟨{ config with authorization := some ("Bearer " ++ u.token) }, rfl, rfl, ?_⟩
      simp only [requestInterceptor, hu, if_false]

/-! ## Claims -/

/-- C1: for every assessment and every `savedAnswers` (null, empty, partial,
complete, or naming questions that are not in the assessment)
`createInitialValues` returns exactly one answer per question, and the i-th
answer carries the id of the i-th question. -/
theorem createInitialValues_aligned (assessment : Assessment)
    (savedAnswers : Option (List Answer)) (initialEmail : String) :
    (createInitialValues assessment savedAnswers initialEmail).answers.length =
        assessment.questions.length ∧
      ∀ i : Nat, ((createInitialValues assessment savedAnswers initialEmail).answers[i]?).map
          (fun a => a.question) = (assessment.questions[i]?).map (fun q => q.id) := by
  have h := map_question_createInitialValues assessment savedAnswers initialEmail
  refine ⟨?_, fun i => ?_⟩
  · simpa using congrArg List.length h
  · have := congrArg (fun l => l[i]?) h
    simpa using this

/-- C2: with pairwise distinct question ids, the answer that
`createInitialValues` gives the i-th question `q` carries `q.id` and the text
`expectedAnswerText q saved`: the empty default of the question type when no
saved answer refers to `q`, else the value of the matching saved answer, split
on commas when `q` is a checkbox question and the value is a string, unchanged
otherwise. A `null` savedAnswers counts as no saved answer. -/
theorem createInitialValues_answer_text (assessment : Assessment)
    (savedAnswers : Option (List Answer)) (initialEmail : String)
    (hnd : (assessment.questions.map (fun q => q.id)).Nodup)
    (i : Nat) (q : Question) (hq : assessment.questions[i]? = some q) :
    (createInitialValues assessment savedAnswers initialEmail).answers[i]? =
      some { question := q.id,
             answer_text := expectedAnswerText q (savedAnswers.getD []) } := by
  have hinit : (assessment.questions.map (fun q : Question =>
      ({ question := q.id, answer_text := if q.question_type == "checkbox" then JsVal.arr []
          else JsVal.str "" } : Answer)))[i]? =
      some { question := q.id, answer_text := emptyDefault q } := by
    simp [hq, emptyDefault]
  cases savedAnswers with
  | none =>
    simp only [createInitialValues, Option.getD_none]
    rw [hinit]
    simp [expectedAnswerText]
  | some saved =>
    simp only [createInitialValues, Option.getD_some]
    rw [getElem?_foldl_overlay assessment hnd saved _ (by simp [List.map_map, Function.comp_def])
      hq hinit]
    simp [foldl_overlayOne_eq]

/-- Witness of `createInitialValues_answer_text`: the saved string `a,b` of the checkbox
question of the example comes back as the tokens `a` and `b`. -/
theorem createInitialValues_answer_text_witness :
    (demoAssessment.questions.map (fun q => q.id)).Nodup ∧
      demoAssessment.questions[0]? = some demoCheckbox ∧
      (createInitialValues demoAssessment
          (some [⟨1, JsVal.str "a,b"⟩, ⟨9, JsVal.str "zz"⟩]) "").answers[0]? =
        some { question := 1, answer_text := JsVal.arr [JsVal.str "a", JsVal.str "b"] } :=
  ⟨by decide, rfl,
    createInitialValues_answer_text demoAssessment
      (some [⟨1, JsVal.str "a,b"⟩, ⟨9, JsVal.str "zz"⟩]) "" (by decide) 0 demoCheckbox rfl⟩

/-- C3 (amended): for every assessment with at least one question, whatever
the `steps` state was before, the step grouping effect puts the respondent-info
step at index 0, every later step is a question step, and the question lists of
the later steps, concatenated in order, are exactly the assessment's question
list. -/
theorem stepGroupingEffect_partition (a : Assessment) (steps : List Step)
    (hne : a.questions ≠ []) :
    (stepGroupingEffect (some a) steps)[0]? = some userInfoStep ∧
      userInfoStep.isUserInfo = true ∧
      (∀ s ∈ (stepGroupingEffect (some a) steps).tail, s.isUserInfo = false) ∧
      ∃ slices : List (List Question),
        (stepGroupingEffect (some a) steps).tail.map (fun s => s.questions) = slices.map some ∧
          slices.flatten = a.questions := by
  rw [stepGroupingEffect_of_ne_nil a steps hne]
  refine ⟨by simp [buildSteps], rfl, ?_, questionStepsLoop a.questions 0 [],
    map_questions_buildSteps_tail _, ?_⟩
  · intro s hs
    simp only [buildSteps, List.tail_cons, List.mem_mapIdx] at hs
    obtain ⟨i, _, rfl⟩ := hs
    rfl
  · simpa using questionStepsLoop_join a.questions 0 []

/-- Witness of `stepGroupingEffect_partition` on the four-question example. -/
theorem stepGroupingEffect_partition_witness :
    demoAssessment.questions ≠ [] ∧
      (stepGroupingEffect (some demoAssessment) initialSteps)[0]? = some userInfoStep ∧
      userInfoStep.isUserInfo = true ∧
      (∀ s ∈ (stepGroupingEffect (some demoAssessment) initialSteps).tail,
        s.isUserInfo = false) ∧
      ∃ slices : List (List Question),
        (stepGroupingEffect (some demoAssessment) initialSteps).tail.map
            (fun s => s.questions) = slices.map some ∧
          slices.flatten = demoAssessment.questions :=
  ⟨by simp [demoAssessment],
    stepGroupingEffect_partition demoAssessment initialSteps (by simp [demoAssessment])⟩

/-- C3 (as stated, refuted): for the assessment without questions the effect
sets nothing, so the step sequence stays the initial empty array and there is
no respondent-info step at index 0. -/
theorem stepGroupingEffect_empty_assessment :
    stepGroupingEffect (some { id := 1, questions := [] }) initialSteps = [] ∧
      ¬ ∃ s : Step,
        (stepGroupingEffect (some { id := 1, questions := [] }) initialSteps)[0]? = some s ∧
          s.isUserInfo = true := by
  simp [stepGroupingEffect, initialSteps]

/-- C4: for every assessment with at least one question, the question step at
index `j + 1` holds the consecutive questions `slice(3j, 3j + 3)` of the
assessment, at least 1 and at most 3 of them, and exactly 3 unless it is the last
step. -/
theorem questionStep_size (a : Assessment) (steps : List Step) (hne : a.questions ≠ [])
    (j : Nat) (st : Step) (hst : (stepGroupingEffect (some a) steps)[j + 1]? = some st) :
    ∃ qs : List Question, st.questions = some qs ∧
      qs = slice a.questions (3 * j) (3 * j + 3) ∧
      1 ≤ qs.length ∧ qs.length ≤ 3 ∧
      (j + 2 < (stepGroupingEffect (some a) steps).length → qs.length = 3) := by
  rw [stepGroupingEffect_of_ne_nil a steps hne] at hst ⊢
  rw [buildSteps_length]
  simp only [buildSteps, List.getElem?_cons_succ, List.getElem?_mapIdx,
    getElem?_questionStepsLoop] at hst
  by_cases hj : j < (a.questions.length + 2) / 3
  · simp only [hj, if_true, Option.map_some', Option.some.injEq] at hst
    subst hst
    refine ⟨_, rfl, rfl, ?_, ?_, ?_⟩
    · rw [length_slice_step]; omega
    · rw [length_slice_step]; omega
    · intro hlast
      rw [length_slice_step]; omega
  · simp [hj] at hst

/-- Witness of `questionStep_size`: the second question step of the four-question
example holds the fourth question alone. -/
theorem questionStep_size_witness :
    demoAssessment.questions ≠ [] ∧
      (stepGroupingEffect (some demoAssessment) initialSteps)[1 + 1]? =
        some { title := "Section 2", isUserInfo := false, questions := some [demoChoice] } ∧
      ∃ qs : List Question,
        (some [demoChoice] : Option (List Question)) = some qs ∧
          qs = slice demoAssessment.questions (3 * 1) (3 * 1 + 3) ∧
          1 ≤ qs.length ∧ qs.length ≤ 3 ∧
          (1 + 2 < (stepGroupingEffect (some demoAssessment) initialSteps).length →
            qs.length = 3) :=
  have hne : demoAssessment.questions ≠ [] := by simp [demoAssessment]
  have hst : (stepGroupingEffect (some demoAssessment) initialSteps)[1 + 1]? =
      some { title := "Section 2", isUserInfo := false, questions := some [demoChoice] } := by
    simp [stepGroupingEffect, demoAssessment, buildSteps, questionStepsLoop, slice,
      questionsPerStep, List.mapIdx_cons]
    decide
  ⟨hne, hst, questionStep_size demoAssessment initialSteps hne 1 _ hst⟩

/-- C5: for every assessment with N >= 1 questions the effect yields
1 + ceil(N/3) steps, and from step index 0 the last step index is reached after
k calls of `handleNext` exactly when k >= ceil(N/3), so ceil(N/3) calls are needed
and suffice; for four questions q1..q4 the steps are the info step, a step of
q1, q2, q3 and a step of q4, and the last index 2 is reached after 2 calls and not
before. -/
theorem steps_count_and_advance (a : Assessment) (steps : List Step)
    (hpos : 1 ≤ a.questions.length) :
    (stepGroupingEffect (some a) steps).length = 1 + ⌈(a.questions.length : ℚ) / 3⌉₊ ∧
      (∀ k : Nat,
        (handleNext (stepGroupingEffect (some a) steps))^[k] 0 =
            ((stepGroupingEffect (some a) steps).length : Int) - 1 ↔
          ⌈(a.questions.length : ℚ) / 3⌉₊ ≤ k) ∧
      (∀ q1 q2 q3 q4 : Question, a.questions = [q1, q2, q3, q4] →
        stepGroupingEffect (some a) steps =
            [userInfoStep,
             { title := "Section 1", isUserInfo := false, questions := some [q1, q2, q3] },
             { title := "Section 2", isUserInfo := false, questions := some [q4] }] ∧
          (handleNext (stepGroupingEffect (some a) steps))^[2] 0 = 2 ∧
          ∀ k : Nat, k < 2 → (handleNext (stepGroupingEffect (some a) steps))^[k] 0 ≠ 2) := by
  have hne : a.questions ≠ [] := by
    intro h
    rw [h] at hpos
    simp at hpos
  have hlen : (stepGroupingEffect (some a) steps).length = 1 + (a.questions.length + 2) / 3 := by
    rw [stepGroupingEffect_of_ne_nil a steps hne, buildSteps_length]
  have hiter : ∀ k : Nat, (handleNext (stepGroupingEffect (some a) steps))^[k] 0 =
      min (k : Int) (((a.questions.length + 2) / 3 : Nat) : Int) := by
    intro k
    rw [iterate_handleNext _ (by omega), hlen]
    push_cast
    omega
  refine ⟨by rw [hlen, ceil_div_three], ?_, ?_⟩
  · intro k
    rw [hiter, hlen, ceil_div_three]
    push_cast
    omega
  · intro q1 q2 q3 q4 hq
    refine ⟨?_, ?_, ?_⟩
    · rw [stepGroupingEffect_of_ne_nil a steps hne, hq]
      simp [buildSteps, questionStepsLoop, slice, questionsPerStep, List.mapIdx_cons]
      decide
    · rw [hiter, hq]
      simp only [List.length_cons, List.length_nil]
      omega
    · intro k hk
      rw [hiter, hq]
      simp only [List.length_cons, List.length_nil]
      omega

/-- Witness of `steps_count_and_advance`: three steps for the four-question example,
the last one reached after two calls of `handleNext` and not after one. -/
theorem steps_count_and_advance_witness :
    1 ≤ demoAssessment.questions.length ∧
      (stepGroupingEffect (some demoAssessment) initialSteps).length = 3 ∧
      (handleNext (stepGroupingEffect (some demoAssessment) initialSteps))^[2] 0 = 2 ∧
      (handleNext (stepGroupingEffect (some demoAssessment) initialSteps))^[1] 0 ≠ 2 :=
  have hpos : 1 ≤ demoAssessment.questions.length := by decide
  have h := (steps_count_and_advance demoAssessment initialSteps hpos).2.2
    demoCheckbox demoText demoScale demoChoice rfl
  ⟨hpos, by rw [h.1]; rfl, h.2.1, h.2.2 1 (by decide)⟩

/-- C6 (amended): for an assessment with at least one question and a session with
one answer per question, the percentage set by `FormProgress` is 0 when every
answer is the empty array or a string without a character that is not white
space (the empty string among them), and 100 when every answer is an array with
an element or a string with a character that is not white space. -/
theorem FormProgress_endpoints (values : Values) (a : Assessment) (progressPercent : Int)
    (hpos : 1 ≤ a.questions.length) (hlen : values.answers.length = a.questions.length) :
    ((∀ ans ∈ values.answers,
        ans.answer_text = JsVal.arr [] ∨
          ∃ s, ans.answer_text = JsVal.str s ∧ ∀ c ∈ s.data, isJsWhitespace c = true) →
        FormProgress values (some a) progressPercent = 0) ∧
      ((∀ ans ∈ values.answers,
        (∃ x xs, ans.answer_text = JsVal.arr (x :: xs)) ∨
          ∃ s, ans.answer_text = JsVal.str s ∧ ∃ c ∈ s.data, isJsWhitespace c = false) →
        FormProgress values (some a) progressPercent = 100) := by
  have hne : ¬ a.questions.length = 0 := by omega
  constructor
  · intro h
    have hc : countAnswered values.answers = 0 := by
      rw [countAnswered_eq_countP, List.countP_eq_zero]
      intro ans hans
      simp [isAnswered_of_blank _ (h ans hans)]
    simp only [FormProgress, hne, if_false, hc, percentOf_zero]
  · intro h
    have hc : countAnswered values.answers = a.questions.length := by
      rw [countAnswered_eq_countP, ← hlen, List.countP_eq_length]
      intro ans hans
      simp [isAnswered_of_nonEmpty _ (h ans hans)]
    simp only [FormProgress, hne, if_false, hc, percentOf_self _ hpos]

/-- Witness of `FormProgress_endpoints`: the example form shows 100 percent once
each of its four questions is answered, and 0 percent when freshly initialised. -/
theorem FormProgress_endpoints_witness :
    1 ≤ demoAssessment.questions.length ∧
      demoValuesAnswered.answers.length = demoAssessment.questions.length ∧
      FormProgress demoValuesAnswered (some demoAssessment) 0 = 100 ∧
      FormProgress (createInitialValues demoAssessment none "a@b.co") (some demoAssessment) 0
        = 0 :=
  have hpos : 1 ≤ demoAssessment.questions.length := by decide
  ⟨hpos, rfl,
    (FormProgress_endpoints demoValuesAnswered demoAssessment 0 hpos rfl).2 (by
      intro ans hans
      simp only [demoValuesAnswered, List.mem_cons, List.mem_singleton] at hans
      rcases hans with rfl | rfl | rfl | rfl | hans
      · exact Or.inl ⟨_, _, rfl⟩
      · exact Or.inr ⟨"because", rfl, 'b', by decide, by decide⟩
      · exact Or.inr ⟨"4", rfl, '4', by decide, by decide⟩
      · exact Or.inr ⟨"yes", rfl, 'y', by decide, by decide⟩
      · exact absurd hans (List.not_mem_nil _)),
    (FormProgress_endpoints (createInitialValues demoAssessment none "a@b.co")
      demoAssessment 0 hpos rfl).1 (by
      intro ans hans
      have hval : (createInitialValues demoAssessment none "a@b.co").answers =
          [⟨1, JsVal.arr []⟩, ⟨2, JsVal.str ""⟩, ⟨3, JsVal.str ""⟩, ⟨4, JsVal.str ""⟩] := rfl
      rw [hval] at hans
      simp only [List.mem_cons, List.mem_singleton] at hans
      rcases hans with rfl | rfl | rfl | rfl | hans
      · exact Or.inl rfl
      · exact Or.inr ⟨"", rfl, by simp⟩
      · exact Or.inr ⟨"", rfl, by simp⟩
      · exact Or.inr ⟨"", rfl, by simp⟩
      · exact absurd hans (List.not_mem_nil _))⟩

/-- C6 (as stated, refuted): the assessment of the one required text question,
answered with a single space. The answer is not the empty string and the
validation test accepts it, so every question has a non-empty answer; yet
`FormProgress` sets 0 percent, not 100. -/
theorem FormProgress_blank_answer_zero :
    1 ≤ demoTextOnly.questions.length ∧
      (" " : String) ≠ "" ∧
      answerTextTest demoTextOnly 2 (JsVal.str " ") = true ∧
      FormProgress { email := "a@b.co", answers := [⟨2, JsVal.str " "⟩] } (some demoTextOnly) 50
        = 0 ∧
      FormProgress { email := "a@b.co", answers := [⟨2, JsVal.str " "⟩] } (some demoTextOnly) 50
        ≠ 100 := by
  have hc : countAnswered [(⟨2, JsVal.str " "⟩ : Answer)] = 0 := by decide
  have hzero : FormProgress { email := "a@b.co", answers := [⟨2, JsVal.str " "⟩] }
      (some demoTextOnly) 50 = 0 := by
    simp only [FormProgress, demoTextOnly, List.length_singleton, one_ne_zero, if_false, hc,
      percentOf_zero]
  refine ⟨by decide, by decide, by decide, hzero, ?_⟩
  rw [hzero]
  decide

/-- C7: for a fixed assessment, replacing one empty answer (the empty array, or a
string without a character that is not white space, the empty string among them)
by any value never lowers the percentage that `FormProgress` sets; when the new
value is an array with an element or a string with a character that is not white
space, the number of answered questions rises by one; and for a fixed number of
questions the percentage of line 101, computed in double precision, is
monotonically non-decreasing in the number of answered questions. -/
theorem FormProgress_monotone (assessment : Option Assessment) (progressPercent : Int)
    (email : String) (before after : List Answer) (x : Answer) (v : JsVal)
    (hx : x.answer_text = JsVal.arr [] ∨
      ∃ s, x.answer_text = JsVal.str s ∧ ∀ c ∈ s.data, isJsWhitespace c = true) :
    FormProgress { email := email, answers := before ++ x :: after } assessment
          progressPercent ≤
        FormProgress { email := email,
                       answers := before ++ { x with answer_text := v } :: after }
          assessment progressPercent ∧
      (((∃ y ys, v = JsVal.arr (y :: ys)) ∨
          ∃ s, v = JsVal.str s ∧ ∃ c ∈ s.data, isJsWhitespace c = false) →
        countAnswered (before ++ { x with answer_text := v } :: after) =
          countAnswered (before ++ x :: after) + 1) ∧
      ∀ totalQuestions a b : Nat, 1 ≤ totalQuestions → a ≤ b →
        percentOf a totalQuestions ≤ percentOf b totalQuestions := by
  have hx0 : isAnswered x.answer_text = false := isAnswered_of_blank _ hx
  refine ⟨?_, ?_, fun n a b _ hab => percentOf_mono a b n hab⟩
  · cases assessment with
    | none => simp [FormProgress]
    | some asm =>
      simp only [FormProgress]
      split
      · exact le_refl _
      · apply percentOf_mono
        simp only [countAnswered_eq_countP, List.countP_append, List.countP_cons, hx0]
        simp
  · intro hv
    have hv1 : isAnswered v = true := isAnswered_of_nonEmpty v hv
    simp [countAnswered_eq_countP, List.countP_append, List.countP_cons, hx0, hv1]
    omega

/-- Witness of `FormProgress_monotone`: answering the multiple-choice question of the
example, the last of the four, raises the count of answered questions from 2 to 3
and does not lower the percentage; 2 of 4 gives no more than 3 of 4. -/
theorem FormProgress_monotone_witness :
    FormProgress { email := "a@b.co",
                   answers := [⟨1, JsVal.arr [JsVal.str "a"]⟩, ⟨2, JsVal.str "because"⟩,
                               ⟨3, JsVal.str ""⟩] ++ ⟨4, JsVal.str ""⟩ :: [] }
          (some demoAssessment) 0 ≤
        FormProgress { email := "a@b.co",
                       answers := [⟨1, JsVal.arr [JsVal.str "a"]⟩, ⟨2, JsVal.str "because"⟩,
                                   ⟨3, JsVal.str ""⟩] ++
                         { (⟨4, JsVal.str ""⟩ : Answer) with answer_text := JsVal.str "yes" } :: [] }
          (some demoAssessment) 0 ∧
      countAnswered ([⟨1, JsVal.arr [JsVal.str "a"]⟩, ⟨2, JsVal.str "because"⟩,
                      ⟨3, JsVal.str ""⟩] ++
          { (⟨4, JsVal.str ""⟩ : Answer) with answer_text := JsVal.str "yes" } :: []) = 2 + 1 ∧
      percentOf 2 4 ≤ percentOf 3 4 :=
  have h := FormProgress_monotone (some demoAssessment) 0 "a@b.co"
    [⟨1, JsVal.arr [JsVal.str "a"]⟩, ⟨2, JsVal.str "because"⟩, ⟨3, JsVal.str ""⟩] []
    ⟨4, JsVal.str ""⟩ (JsVal.str "yes") (Or.inr ⟨"", rfl, by simp⟩)
  ⟨h.1, h.2.1 (Or.inr ⟨"yes", rfl, 'y', by decide, by decide⟩),
    h.2.2 4 2 3 (by decide) (by decide)⟩

/-- C8 (amended): for a required question and every value of the shape the
form stores for its type (an array for a checkbox question; otherwise a string
that is empty or has a character that is not white space), and for null and
undefined, `FormProgress` counts the value as answered exactly when the
validation test accepts it. -/
theorem isAnswered_eq_answerTextTest (assessment : Assessment) (question : Int)
    (q : Question)
    (hfind : assessment.questions.find? (fun q => q.id == question) = some q)
    (hreq : q.required = true) :
    (q.question_type = "checkbox" → ∀ xs : List JsVal,
        isAnswered (JsVal.arr xs) = answerTextTest assessment question (JsVal.arr xs)) ∧
      (q.question_type ≠ "checkbox" → ∀ s : String, s = "" ∨ jsTrim s ≠ "" →
        isAnswered (JsVal.str s) = answerTextTest assessment question (JsVal.str s)) ∧
      isAnswered JsVal.null = answerTextTest assessment question JsVal.null ∧
      isAnswered JsVal.undefined = answerTextTest assessment question JsVal.undefined := by
  refine ⟨?_, ?_, ?_, ?_⟩
  · intro hcb xs
    simp [answerTextTest, hfind, hreq, hcb, isAnswered, JsVal.isArray, JsVal.arrLength]
  · intro hcb s hs
    have hs2 : jsTrim s ≠ "" ↔ s ≠ "" := by
      rcases hs with h | h
      · subst h
        constructor
        · intro h1 _
          exact h1 (by decide)
        · intro h1
          exact absurd rfl h1
      · exact ⟨fun _ => ne_empty_of_jsTrim_ne_empty s h, fun _ => h⟩
    simp only [answerTextTest, hfind, hreq, isAnswered, Bool.not_true, Bool.false_eq_true,
      if_false, beq_iff_eq, hcb]
    by_cases h1 : s = ""
    · subst h1
      decide
    · have e1 : (s != "") = true := by simpa using h1
      have e2 : (jsTrim s != "") = true := by simpa using hs2.mpr h1
      rw [e1, e2]
  · by_cases hcb : q.question_type = "checkbox" <;>
      simp [answerTextTest, hfind, hreq, hcb, isAnswered, JsVal.isArray]
  · by_cases hcb : q.question_type = "checkbox" <;>
      simp [answerTextTest, hfind, hreq, hcb, isAnswered, JsVal.isArray]

/-- Witness of `isAnswered_eq_answerTextTest` on a text answer of the example. -/
theorem isAnswered_eq_answerTextTest_witness :
    demoAssessment.questions.find? (fun q => q.id == 2) = some demoText ∧
      demoText.required = true ∧ demoText.question_type ≠ "checkbox" ∧
      isAnswered (JsVal.str "because") =
        answerTextTest demoAssessment 2 (JsVal.str "because") :=
  ⟨rfl, rfl, by decide,
    (isAnswered_eq_answerTextTest demoAssessment 2 demoText rfl rfl).2.1
      (by decide) "because" (Or.inr (by decide))⟩

/-- C8 (as stated, refuted): on the text answer made of one blank the
validation test accepts, were the question required, and `FormProgress` does not
count the answer. -/
theorem isAnswered_ne_acceptsWhenRequired_blank :
    isAnswered (JsVal.str " ") = false ∧ acceptsWhenRequired "text" (JsVal.str " ") = true := by
  decide

/-- C9: the validation test rejects the empty selection of every required
checkbox question, and accepts every value when the question of the answer is
not required. -/
theorem answerTextTest_required_gate (assessment : Assessment) (question : Int)
    (q : Question)
    (hfind : assessment.questions.find? (fun q => q.id == question) = some q) :
    (q.required = true → q.question_type = "checkbox" →
        answerTextTest assessment question (JsVal.arr []) = false) ∧
      (q.required = false → ∀ value : JsVal,
        answerTextTest assessment question value = true) := by
  constructor
  · intro hreq hcb
    simp [answerTextTest, hfind, hreq, hcb, JsVal.isArray, JsVal.arrLength]
  · intro hreq value
    simp [answerTextTest, hfind, hreq]

/-- Witness of `answerTextTest_required_gate`: the empty selection of the required
checkbox question of the example is rejected. -/
theorem answerTextTest_required_gate_witness :
    demoAssessment.questions.find? (fun q => q.id == 1) = some demoCheckbox ∧
      demoCheckbox.required = true ∧ demoCheckbox.question_type = "checkbox" ∧
      answerTextTest demoAssessment 1 (JsVal.arr []) = false :=
  ⟨rfl, rfl, rfl,
    (answerTextTest_required_gate demoAssessment 1 demoCheckbox rfl).1 rfl rfl⟩

/-- C10 (amended): for a required question of any type other than checkbox
(text, multiple_choice and scale among them) the validation test accepts a value
exactly when it is neither undefined, nor null, nor the empty string, so among
scalars exactly the non-empty, non-null ones, and arrays and objects as well; for
a required checkbox question it accepts exactly the non-empty arrays. -/
theorem answerTextTest_required (assessment : Assessment) (question : Int)
    (q : Question)
    (hfind : assessment.questions.find? (fun q => q.id == question) = some q)
    (hreq : q.required = true) (value : JsVal) :
    (q.question_type ≠ "checkbox" →
        (answerTextTest assessment question value = true ↔
          value ≠ JsVal.undefined ∧ value ≠ JsVal.null ∧ value ≠ JsVal.str "")) ∧
      (q.question_type ≠ "checkbox" → value.isArray = false → value ≠ JsVal.obj →
        (answerTextTest assessment question value = true ↔ isNonEmptyScalar value = true)) ∧
      (q.question_type = "checkbox" →
        (answerTextTest assessment question value = true ↔
          ∃ x xs, value = JsVal.arr (x :: xs))) := by
  refine ⟨?_, ?_, ?_⟩
  · intro hcb
    cases value <;> simp [answerTextTest, hfind, hreq, hcb]
  · intro hcb harr hobj
    cases value <;>
      simp_all [answerTextTest, hfind, hreq, hcb, isNonEmptyScalar, JsVal.isArray]
  · intro hcb
    cases value with
    | arr xs =>
      cases xs <;>
        simp [answerTextTest, hfind, hreq, hcb, JsVal.isArray, JsVal.arrLength]
    | _ => simp [answerTextTest, hfind, hreq, hcb, JsVal.isArray]

/-- Witness of `answerTextTest_required` on the multiple-choice question of the
example. -/
theorem answerTextTest_required_witness :
    demoAssessment.questions.find? (fun q => q.id == 4) = some demoChoice ∧
      demoChoice.required = true ∧ demoChoice.question_type ≠ "checkbox" ∧
      (answerTextTest demoAssessment 4 (JsVal.str "yes") = true ↔
        JsVal.str "yes" ≠ JsVal.undefined ∧ JsVal.str "yes" ≠ JsVal.null ∧
          JsVal.str "yes" ≠ JsVal.str "") :=
  ⟨rfl, rfl, by decide,
    (answerTextTest_required demoAssessment 4 demoChoice rfl rfl
      (JsVal.str "yes")).1 (by decide)⟩

/-- C10 (as stated, refuted): for the required text question of the example
the validation test accepts the empty array, which is not a non-empty, non-null
scalar. -/
theorem answerTextTest_accepts_empty_array :
    demoText.required = true ∧ demoText.question_type = "text" ∧
      demoAssessment.questions.find? (fun q => q.id == 2) = some demoText ∧
      answerTextTest demoAssessment 2 (JsVal.arr []) = true ∧
      isNonEmptyScalar (JsVal.arr []) = false :=
  ⟨rfl, rfl, rfl, by decide, rfl⟩

/-- C11: for every form state, `handleSubmit` on a loaded assessment issues one
`submitResponse` request whose body has the assessment id, the form email and as
many answers as the form, in the same order; each entry keeps its question id, an
array answer text is replaced by its elements joined with commas (for string
tokens the tokens separated by commas) and any other answer text is unchanged. -/
theorem handleSubmit_payload (page : PageState) (assessment : Assessment) (values : Values)
    (result : Except ApiError Unit) (hpage : page.assessment = some assessment) :
    ∃ data : ResponseData,
      (handleSubmit page values result).calls = [ApiCall.submitResponse data] ∧
      data.assessment = assessment.id ∧ data.respondent_email = values.email ∧
      data.answers.length = values.answers.length ∧
      ∀ (i : Nat) (answer : Answer), values.answers[i]? = some answer →
        ∃ entry : Answer, data.answers[i]? = some entry ∧
          entry.question = answer.question ∧
          (∀ xs : List JsVal, answer.answer_text = JsVal.arr xs →
            entry.answer_text = JsVal.str (jsJoin xs)) ∧
          (∀ tokens : List String, answer.answer_text = JsVal.arr (tokens.map JsVal.str) →
            entry.answer_text = JsVal.str (",".intercalate tokens)) ∧
          (answer.answer_text.isArray = false → entry.answer_text = answer.answer_text) := by
  refine ⟨responseData assessment values, ?_, rfl, rfl, by simp [responseData], ?_⟩
  · cases result <;> simp [handleSubmit, hpage]
  · intro i answer hi
    refine ⟨serializeAnswer answer, by simp [responseData, hi], rfl, ?_, ?_, ?_⟩
    · intro xs hxs
      simp [serializeAnswer, hxs]
    · intro tokens htok
      simp [serializeAnswer, htok, jsJoin_map_str]
    · intro harr
      cases hv : answer.answer_text <;> simp_all [serializeAnswer, JsVal.isArray]

/-- Witness of `handleSubmit_payload` on the example page and values. -/
theorem handleSubmit_payload_witness :
    demoPage.assessment = some demoAssessment ∧
      ∃ data : ResponseData,
        (handleSubmit demoPage demoValues (Except.ok ())).calls =
            [ApiCall.submitResponse data] ∧
          data.assessment = 7 ∧ data.respondent_email = "a@b.co" ∧
          data.answers[0]? = some ⟨1, JsVal.str "a,b"⟩ :=
  ⟨rfl,
    match handleSubmit_payload demoPage demoAssessment demoValues (Except.ok ()) rfl with
    | ⟨data, hcalls, hid, hmail, _, hentries⟩ =>
      ⟨data, hcalls, hid, hmail,
        match hentries 0 ⟨1, JsVal.arr [JsVal.str "a", JsVal.str "b"]⟩ rfl with
        | ⟨entry, hentry, hq, hjoin, _, _⟩ => by
          rw [hentry]
          cases entry with
          | mk question answer_text =>
            simp only at hq
            have h2 := hjoin [JsVal.str "a", JsVal.str "b"] rfl
            simp only at h2
            rw [hq, h2]
            rfl⟩⟩

/-- C12: for a checkbox question of an assessment with distinct question ids
and every non-empty list of tokens without commas, the answer serialized as
`handleSubmit` does is the tokens joined with commas, and `createInitialValues`
with that serialized answer as the saved answer of the question gives back the
tokens in their order; in particular the tokens `a`, `b` are serialized to `a,b`
and come back as `a`, `b`. Empty tokens are allowed. -/
theorem checkbox_round_trip (assessment : Assessment) (initialEmail : String)
    (hnd : (assessment.questions.map (fun q => q.id)).Nodup)
    (i : Nat) (q : Question) (hq : assessment.questions[i]? = some q)
    (hcb : q.question_type = "checkbox") :
    (∀ tokens : List String, tokens ≠ [] → (∀ t ∈ tokens, ',' ∉ t.data) →
      serializeAnswer ⟨q.id, JsVal.arr (tokens.map JsVal.str)⟩ =
          ⟨q.id, JsVal.str (",".intercalate tokens)⟩ ∧
        (createInitialValues assessment
            (some [serializeAnswer ⟨q.id, JsVal.arr (tokens.map JsVal.str)⟩])
            initialEmail).answers[i]? =
          some ⟨q.id, JsVal.arr (tokens.map JsVal.str)⟩) ∧
      serializeAnswer ⟨q.id, JsVal.arr [JsVal.str "a", JsVal.str "b"]⟩ =
        ⟨q.id, JsVal.str "a,b"⟩ ∧
      (createInitialValues assessment (some [⟨q.id, JsVal.str "a,b"⟩])
          initialEmail).answers[i]? =
        some ⟨q.id, JsVal.arr [JsVal.str "a", JsVal.str "b"]⟩ := by
  have hinit : (assessment.questions.map (fun q : Question =>
      ({ question := q.id, answer_text := if q.question_type == "checkbox" then JsVal.arr []
          else JsVal.str "" } : Answer)))[i]? =
      some { question := q.id, answer_text := emptyDefault q } := by
    simp [hq, emptyDefault]
  have hround : ∀ tokens : List String, tokens ≠ [] → (∀ t ∈ tokens, ',' ∉ t.data) →
      (createInitialValues assessment
          (some [⟨q.id, JsVal.str (jsJoin (tokens.map JsVal.str))⟩]) initialEmail).answers[i]? =
        some ⟨q.id, JsVal.arr (tokens.map JsVal.str)⟩ := by
    intro tokens hne hcomma
    simp only [createInitialValues]
    rw [getElem?_foldl_overlay assessment hnd _ _
      (by simp [List.map_map, Function.comp_def]) hq hinit]
    simp [overlayOne, hydrate, hcb, jsSplit_jsJoin tokens hne hcomma]
  refine ⟨?_, rfl, ?_⟩
  · intro tokens hne hcomma
    have hser : serializeAnswer ⟨q.id, JsVal.arr (tokens.map JsVal.str)⟩ =
        ⟨q.id, JsVal.str (jsJoin (tokens.map JsVal.str))⟩ := rfl
    refine ⟨by rw [hser, jsJoin_map_str], ?_⟩
    rw [hser]
    exact hround tokens hne hcomma
  · exact hround ["a", "b"] (by simp) (by decide)

/-- Witness of `checkbox_round_trip` on the checkbox question of the example. -/
theorem checkbox_round_trip_witness :
    (demoAssessment.questions.map (fun q => q.id)).Nodup ∧
      demoAssessment.questions[0]? = some demoCheckbox ∧
      demoCheckbox.question_type = "checkbox" ∧
      (createInitialValues demoAssessment (some [⟨demoCheckbox.id, JsVal.str "a,b"⟩])
          "").answers[0]? =
        some ⟨demoCheckbox.id, JsVal.arr [JsVal.str "a", JsVal.str "b"]⟩ :=
  ⟨by decide, rfl, rfl,
    (checkbox_round_trip demoAssessment "" (by decide) 0 demoCheckbox rfl rfl).2.2⟩

/-- C15: when a form with a valid email has one required text question left
blank (the empty string) and every other answer passes the validation test, the
error map has exactly one entry, at the answer position of that question, and no
request is issued; and whenever the submission issues a request the error map
was empty, so every answer had passed the validation test. -/
theorem submitForm_blank_required_text (assessment : Assessment)
    (emailFormat : String → Bool) (page : PageState) (values : Values)
    (result : Except ApiError Unit) (i : Nat) (q : Question)
    (hnd : (assessment.questions.map (fun q => q.id)).Nodup)
    (hemail : values.email ≠ "") (hformat : emailFormat values.email = true)
    (hq : assessment.questions[i]? = some q) (hreq : q.required = true)
    (htext : q.question_type = "text")
    (hblank : values.answers[i]? = some ⟨q.id, JsVal.str ""⟩)
    (hothers : ∀ (j : Nat) (a : Answer), j ≠ i → values.answers[j]? = some a →
      answerTextTest assessment a.question a.answer_text = true) :
    (submitForm assessment emailFormat page values result).1 =
        [(FieldPath.answerText i, "This question requires an answer")] ∧
      (submitForm assessment emailFormat page values result).2.calls = [] ∧
      (submitForm assessment emailFormat page values result).2.page = page ∧
      ∀ (page2 : PageState) (values2 : Values) (result2 : Except ApiError Unit),
        (submitForm assessment emailFormat page2 values2 result2).2.calls ≠ [] →
          (submitForm assessment emailFormat page2 values2 result2).1 = [] ∧
            ∀ a ∈ values2.answers,
              answerTextTest assessment a.question a.answer_text = true := by
  have hfail : answerTextTest assessment q.id (JsVal.str "") = false := by
    simp [answerTextTest, find?_of_nodup_ids _ hnd i q hq, hreq, htext]
  have herr : validationSchema assessment emailFormat values =
      [(FieldPath.answerText i, "This question requires an answer")] := by
    have h := answerErrors_single assessment values.answers 0 i _ hblank hfail hothers
    simp only [Nat.zero_add] at h
    simp [validationSchema, emailErrors, hemail, hformat, h]
  refine ⟨?_, ?_, ?_, ?_⟩
  · simp [submitForm, herr]
  · simp [submitForm, herr]
  · simp [submitForm, herr]
  · intro page2 values2 result2 hcalls
    by_cases hempty : validationSchema assessment emailFormat values2 = []
    · refine ⟨by simp [submitForm, hempty], ?_⟩
      have h2 : answerErrors assessment values2.answers 0 = [] := by
        simp only [validationSchema, List.append_eq_nil] at hempty
        exact hempty.2
      exact (answerErrors_eq_nil assessment values2.answers 0).mp h2
    · exfalso
      apply hcalls
      simp [submitForm, hempty]

/-- Witness of `submitForm_blank_required_text`: on the example values, whose
required text question (position 1) is blank, the only error is at position 1
and nothing is sent. -/
theorem submitForm_blank_required_text_witness :
    (submitForm demoAssessment (fun _ => true) demoPage demoValues (Except.ok ())).1 =
        [(FieldPath.answerText 1, "This question requires an answer")] ∧
      (submitForm demoAssessment (fun _ => true) demoPage demoValues (Except.ok ())).2.calls
        = [] :=
  have h := submitForm_blank_required_text demoAssessment (fun _ => true) demoPage demoValues
    (Except.ok ()) 1 demoText (by decide) (by decide) rfl rfl rfl rfl rfl
    (by
      intro j a hj ha
      match j, hj, ha with
      | 0, _, ha => cases ha; decide
      | 1, hj, _ => exact absurd rfl hj
      | 2, _, ha => cases ha; decide
      | 3, _, ha => cases ha; decide
      | n + 4, _, ha => simp [demoValues] at ha)
  ⟨h.1, h.2.1⟩

/-- C13: for every step sequence and every current index within
[0, stepCount-1], `handleNext` yields min(i+1, stepCount-1), `handleBack` yields
max(i-1, 0), and both results are again within [0, stepCount-1]. -/
theorem handleNext_handleBack_clamp (steps : List Step) (i : Int)
    (hlo : 0 ≤ i) (hhi : i ≤ (steps.length : Int) - 1) :
    handleNext steps i = min (i + 1) ((steps.length : Int) - 1) ∧
      handleBack i = max (i - 1) 0 ∧
      0 ≤ handleNext steps i ∧ handleNext steps i ≤ (steps.length : Int) - 1 ∧
      0 ≤ handleBack i ∧ handleBack i ≤ (steps.length : Int) - 1 := by
  refine ⟨rfl, rfl, ?_, ?_, ?_, ?_⟩ <;> simp only [handleNext, handleBack] <;> omega

/-- Witness of `handleNext_handleBack_clamp`: on the three steps of the example,
from the last index 2, next stays at 2 and back goes to 1. -/
theorem handleNext_handleBack_clamp_witness :
    handleNext (buildSteps demoAssessment.questions) 2 = 2 ∧
      handleBack 2 = 1 :=
  have hlen : ((buildSteps demoAssessment.questions).length : Int) = 3 := by
    rw [buildSteps_length]
    rfl
  have h := handleNext_handleBack_clamp (buildSteps demoAssessment.questions) 2
    (by decide) (by rw [hlen]; decide)
  ⟨by rw [h.1, hlen]; decide, by rw [h.2.1]; decide⟩

/-- C14 (amended): `goToStep` makes the requested index the active step
without clamping; the result lies within [0, stepCount-1] exactly when the
requested index does, and this is so for every index a step button passes. -/
theorem goToStep_in_range_iff (steps : List Step) (i : Int) :
    goToStep i = i ∧
      ((0 ≤ goToStep i ∧ goToStep i ≤ (steps.length : Int) - 1) ↔
        (0 ≤ i ∧ i ≤ (steps.length : Int) - 1)) ∧
      ∀ t ∈ stepButtonTargets steps, 0 ≤ t ∧ t ≤ (steps.length : Int) - 1 := by
  refine ⟨rfl, Iff.rfl, ?_⟩
  intro t ht
  simp only [stepButtonTargets, List.mem_mapIdx, goToStep] at ht
  obtain ⟨k, hk, rfl⟩ := ht
  constructor <;> omega

/-- Witness of `goToStep_in_range_iff`: the third button of the example leads to
index 2 of 3 steps. -/
theorem goToStep_in_range_iff_witness :
    (2 : Int) ∈ stepButtonTargets (buildSteps demoAssessment.questions) ∧
      (0 : Int) ≤ 2 ∧ (2 : Int) ≤ ((buildSteps demoAssessment.questions).length : Int) - 1 :=
  have hmem : (2 : Int) ∈ stepButtonTargets (buildSteps demoAssessment.questions) := by
    simp [stepButtonTargets, List.mem_mapIdx, goToStep, buildSteps_length, demoAssessment]
    exact ⟨2, by omega, rfl⟩
  ⟨hmem, (goToStep_in_range_iff (buildSteps demoAssessment.questions) 2).2.2 2 hmem⟩

/-- C14 (as stated, refuted): with the three steps of the example, the
requested index 5 becomes the active step, above the last index 2, and the
requested index -1 becomes the active step, below 0. -/
theorem goToStep_out_of_range :
    ((buildSteps demoAssessment.questions).length : Int) - 1 = 2 ∧
      goToStep 5 = 5 ∧
      ¬ goToStep 5 ≤ ((buildSteps demoAssessment.questions).length : Int) - 1 ∧
      goToStep (-1) = -1 ∧ ¬ (0 : Int) ≤ goToStep (-1) := by
  have hlen : ((buildSteps demoAssessment.questions).length : Int) = 3 := by
    rw [buildSteps_length]
    rfl
  rw [hlen]
  decide

/-- C16 (amended): while the form email is empty the `AutoSave` effect schedules no call,
whatever the context holds, the debounced function issues no request and leaves
the page and its own state alone, whatever callback it is given (the page's
`handleSaveProgress` included), and no `AutoSave` element schedules anything; and
`handleSaveProgress` issues no request while the `email` of the page, by which it
keys the snapshot, is empty. -/
theorem autosave_requires_email (values : Values) (hempty : values.email = "") :
    (∀ (props : AutoSaveProps) (onSave : Option OnSaveProgress),
        autoSaveEffect props { values := values, onSaveProgress := onSave } = none) ∧
      (∀ (onSave : Option OnSaveProgress) (now : Nat) (page : PageState) (auto : AutoSaveState),
        debouncedSubmit values onSave now page auto = (page, auto, [])) ∧
      (∀ (result : Except ApiError Unit) (now : Nat) (page : PageState) (auto : AutoSaveState),
        (debouncedSubmit values (some (handleSaveProgress result)) now page auto).2.2 = []) ∧
      (∀ onSave : Option OnSaveProgress, autoSaveOnChange values onSave = none) ∧
      (∀ (result : Except ApiError Unit) (page : PageState) (anyValues : Values),
        page.email = "" →
          (handleSaveProgress result page anyValues).calls = [] ∧
            (handleSaveProgress result page anyValues).page = page) := by
  refine ⟨?_, ?_, ?_, ?_, ?_⟩
  · intro props onSave
    simp [autoSaveEffect, hempty]
  · intro onSave now page auto
    simp [debouncedSubmit, hempty]
  · intro result now page auto
    simp [debouncedSubmit, hempty]
  · intro onSave
    simp [autoSaveOnChange, hempty]
  · intro result page anyValues hpage
    simp [handleSaveProgress, hpage]

/-- Witness of `autosave_requires_email` on the freshly initialised form of the
example, whose email is empty: the debounced function sends nothing, and
`handleSaveProgress` sends nothing on the page whose `email` state is empty. -/
theorem autosave_requires_email_witness :
    (createInitialValues demoAssessment none "").email = "" ∧
      (debouncedSubmit (createInitialValues demoAssessment none "")
        (some (handleSaveProgress (Except.ok ()))) 5 demoPage ⟨none, false⟩).2.2 = [] ∧
      (handleSaveProgress (Except.ok ()) { demoPage with email := "" } demoValues).calls = [] :=
  ⟨rfl, (autosave_requires_email (createInitialValues demoAssessment none "") rfl).2.2.1
    (Except.ok ()) 5 demoPage ⟨none, false⟩,
    ((autosave_requires_email (createInitialValues demoAssessment none "") rfl).2.2.2.2
      (Except.ok ()) { demoPage with email := "" } demoValues rfl).1⟩

/-- C16 (as stated, refuted): the email a@b.co was typed into the form and the
field was cleared again. `EmailChangeNotifier` passes on a non-empty email only,
so the `email` state of the page is still a@b.co while the email of the form is
empty; `handleSaveProgress`, called with these form values, issues one
`savePartialResponse` request, keyed by the email of the page. -/
theorem handleSaveProgress_ignores_form_email :
    ({ email := "", answers := demoValues.answers } : Values).email = "" ∧
      (emailChangeNotifier "" (emailChangeNotifier "a@b.co" { demoPage with email := "" })).email
        = demoPage.email ∧
      demoPage.email = "a@b.co" ∧
      (handleSaveProgress (Except.ok ()) demoPage
          { email := "", answers := demoValues.answers }).calls =
        [ApiCall.savePartialResponse
          { assessment := 7, respondent_email := "a@b.co", answers := demoValues.answers }] ∧
      (handleSaveProgress (Except.ok ()) demoPage
          { email := "", answers := demoValues.answers }).calls ≠ [] := by
  refine ⟨rfl, rfl, rfl, rfl, ?_⟩
  intro h
  exact List.noConfusion h

/-- C17 (the code at the failing input): with a non-empty email and the page's
`handleSaveProgress` supplied to `AssessmentForm`, the `AutoSave` effect
schedules nothing, and so for all values and callbacks: the effect reads
`onSaveProgress` from the Formik context, which does not hold it, and not from
the props, which do. The effect does schedule the call when the context holds a
callback. -/
theorem autoSaveOnChange_schedules_nothing :
    demoValues.email = "a@b.co" ∧
      (autoSaveOnChange demoValues (some (handleSaveProgress (Except.ok ())))).isNone = true ∧
      (∀ (values : Values) (onSave : Option OnSaveProgress),
        (autoSaveOnChange values onSave).isNone = true) ∧
      (autoSaveEffect { debounceMs := none, onSaveProgress := none }
        { values := demoValues,
          onSaveProgress := some (handleSaveProgress (Except.ok ())) }).isSome = true := by
  refine ⟨rfl, rfl, ?_, rfl⟩
  intro values onSave
  unfold autoSaveOnChange
  split
  · rfl
  · cases onSave with
    | none => rfl
    | some save => simp [autoSaveEffect, useFormikContext]

/-- C18 (the code at the failing input): in `AssessmentForm`, with the page's
`handleSaveProgress` supplied and the email a@b.co, the form values change at 0
ms and again at 500 ms, and nothing has been sent after 5000 ms, nor is it for
any values, callback and times: the effect of `AutoSave` never calls the debounced
function, as under C17. The debounce itself does what the claim says once the
effect finds the callback in its context: after calls at 0 ms and 500 ms nothing
is sent up to 1499 ms, and from 1500 ms on exactly one `savePartialResponse`
request has been sent, at 1500 ms, with the answers of the second call. -/
theorem autosave_twice_sends_nothing :
    demoValues.email = "a@b.co" ∧ demoValuesAnswered.email = "a@b.co" ∧
      (elapse 5000
        (changeValues demoValuesAnswered (some (handleSaveProgress (Except.ok ()))) 500
          (changeValues demoValues (some (handleSaveProgress (Except.ok ()))) 0
            (mountAutoSave
              { debounceMs := none, onSaveProgress := some (handleSaveProgress (Except.ok ())) }
              demoPage)))).sent = [] ∧
      (∀ (values1 values2 : Values) (onSave : Option OnSaveProgress) (props : AutoSaveProps)
          (page : PageState) (t1 t2 t3 : Nat),
        (elapse t3 (changeValues values2 onSave t2 (changeValues values1 onSave t1
          (mountAutoSave props page)))).sent = []) ∧
      (elapse 1499
        (runAutoSaveEffect { debounceMs := none, onSaveProgress := none }
          { values := demoValuesAnswered,
            onSaveProgress := some (handleSaveProgress (Except.ok ())) } 500
          (runAutoSaveEffect { debounceMs := none, onSaveProgress := none }
            { values := demoValues,
              onSaveProgress := some (handleSaveProgress (Except.ok ())) } 0
            (mountAutoSave { debounceMs := none, onSaveProgress := none } demoPage)))).sent
        = [] ∧
      (elapse 1500
        (runAutoSaveEffect { debounceMs := none, onSaveProgress := none }
          { values := demoValuesAnswered,
            onSaveProgress := some (handleSaveProgress (Except.ok ())) } 500
          (runAutoSaveEffect { debounceMs := none, onSaveProgress := none }
            { values := demoValues,
              onSaveProgress := some (handleSaveProgress (Except.ok ())) } 0
            (mountAutoSave { debounceMs := none, onSaveProgress := none } demoPage)))).sent
        = [(1500, ApiCall.savePartialResponse
            { assessment := 7, respondent_email := "a@b.co",
              answers := demoValuesAnswered.answers })] ∧
      (elapse 5000
        (runAutoSaveEffect { debounceMs := none, onSaveProgress := none }
          { values := demoValuesAnswered,
            onSaveProgress := some (handleSaveProgress (Except.ok ())) } 500
          (runAutoSaveEffect { debounceMs := none, onSaveProgress := none }
            { values := demoValues,
              onSaveProgress := some (handleSaveProgress (Except.ok ())) } 0
            (mountAutoSave { debounceMs := none, onSaveProgress := none } demoPage)))).sent
        = [(1500, ApiCall.savePartialResponse
            { assessment := 7, respondent_email := "a@b.co",
              answers := demoValuesAnswered.answers })] := by
  have hall : ∀ (values1 values2 : Values) (onSave : Option OnSaveProgress)
      (props : AutoSaveProps) (page : PageState) (t1 t2 t3 : Nat),
      (elapse t3 (changeValues values2 onSave t2 (changeValues values1 onSave t1
        (mountAutoSave props page)))).sent = [] := by
    intro values1 values2 onSave props page t1 t2 t3
    rw [changeValues_eq_elapse, changeValues_eq_elapse, elapse_of_idle t1 _ rfl,
      elapse_of_idle t2 _ rfl, elapse_of_idle t3 _ rfl]
    rfl
  exact ⟨rfl, rfl, hall _ _ _ _ _ _ _ _, hall, rfl, rfl, rfl⟩

/-- C19 (amended): when the `savePartialResponse` request made by
`handleSaveProgress` fails, exactly that one request was issued (no retry),
`saveProgress` is unchanged and the returned promise resolves, so `AutoSave` does
not see the failure; but the error is surfaced: the error state of the page is
set to `Could not save progress: ` followed by the detail or message of the
failure. -/
theorem handleSaveProgress_failure (page : PageState) (assessment : Assessment)
    (values : Values) (err : ApiError)
    (hemail : page.email ≠ "") (hpage : page.assessment = some assessment) :
    (handleSaveProgress (Except.error err) page values).calls =
        [ApiCall.savePartialResponse
          { assessment := assessment.id, respondent_email := page.email,
            answers := values.answers }] ∧
      (handleSaveProgress (Except.error err) page values).page.error =
        some ("Could not save progress: " ++ errorText err) ∧
      (handleSaveProgress (Except.error err) page values).page.saveProgress =
        page.saveProgress ∧
      (handleSaveProgress (Except.error err) page values).settled = Settled.resolved := by
  simp [handleSaveProgress, hemail, hpage]

/-- Witness of `handleSaveProgress_failure` on the example page. -/
theorem handleSaveProgress_failure_witness :
    demoPage.email ≠ "" ∧ demoPage.assessment = some demoAssessment ∧
      (handleSaveProgress (Except.error ⟨none, "Network Error"⟩) demoPage demoValues).page.error
        = some ("Could not save progress: " ++ errorText ⟨none, "Network Error"⟩) :=
  ⟨by decide, rfl,
    (handleSaveProgress_failure demoPage demoAssessment demoValues ⟨none, "Network Error"⟩
      (by decide) rfl).2.1⟩

/-- C19 (as stated, refuted): on the example page, whose error state is empty,
a failed `savePartialResponse` request leaves the error state set to a message
for the user. -/
theorem handleSaveProgress_surfaces_error :
    demoPage.error = none ∧
      (handleSaveProgress (Except.error ⟨none, "Network Error"⟩) demoPage demoValues).page.error
        = some "Could not save progress: Network Error" := by
  constructor
  · rfl
  · decide

/-- C20 (the code at the failing input): the debounced function of `AutoSave`,
given the page's `handleSaveProgress`, sets `lastSaved` to the current time when
the `savePartialResponse` request fails, and also when the request is skipped
because the `email` of the page is empty; in both cases the previous value was
`none`. It sets it as well when the request succeeds. -/
theorem debouncedSubmit_lastSaved_on_failure :
    (debouncedSubmit demoValues (some (handleSaveProgress (Except.error ⟨none, "Network Error"⟩)))
        5 demoPage ⟨none, false⟩).2.1.lastSaved = some 5 ∧
      (debouncedSubmit demoValues (some (handleSaveProgress (Except.error ⟨none, "Network Error"⟩)))
        5 demoPage ⟨none, false⟩).2.2.length = 1 ∧
      (debouncedSubmit demoValues (some (handleSaveProgress (Except.ok ())))
        5 { demoPage with email := "" } ⟨none, false⟩).2.1.lastSaved = some 5 ∧
      (debouncedSubmit demoValues (some (handleSaveProgress (Except.ok ())))
        5 { demoPage with email := "" } ⟨none, false⟩).2.2 = [] ∧
      (debouncedSubmit demoValues (some (handleSaveProgress (Except.ok ())))
        5 demoPage ⟨none, false⟩).2.1.lastSaved = some 5 := by
  refine ⟨rfl, rfl, rfl, rfl, rfl⟩

/-- C21: with an assessment loaded and a non-empty email the lookup is issued
once; a non-empty result sets `saveProgress` to true and leaves the error state
alone, an empty result or a failure leaves the whole page state as it was; the
initial values that the page hands to the form are the same before and after, in
every case; and while the email is empty or no assessment is loaded no lookup is
issued and the page state is unchanged. -/
theorem loadPartialResponse_resolver (page : PageState) :
    (∀ (a : Assessment) (data : List ResponseData),
        page.email ≠ "" → page.assessment = some a → data ≠ [] →
          (loadPartialResponse (Except.ok data) page).calls =
              [ApiCall.getPartialResponse a.id page.email] ∧
            (loadPartialResponse (Except.ok data) page).page.saveProgress = true ∧
            (loadPartialResponse (Except.ok data) page).page.error = page.error) ∧
      (∀ (a : Assessment) (err : ApiError),
        page.email ≠ "" → page.assessment = some a →
          (loadPartialResponse (Except.ok []) page).page = page ∧
            (loadPartialResponse (Except.error err) page).page = page ∧
            (loadPartialResponse (Except.error err) page).calls =
              [ApiCall.getPartialResponse a.id page.email]) ∧
      (∀ result : Except ApiError (List ResponseData),
        renderedInitialValues (loadPartialResponse result page).page =
          renderedInitialValues page) ∧
      (∀ result : Except ApiError (List ResponseData),
        page.email = "" ∨ page.assessment = none →
          (loadPartialResponse result page).calls = [] ∧
            (loadPartialResponse result page).page = page) := by
  refine ⟨?_, ?_, ?_, ?_⟩
  · intro a data hemail ha hdata
    have hlen : data.length > 0 := List.length_pos.mpr hdata
    simp [loadPartialResponse, hemail, ha, hlen]
  · intro a err hemail ha
    simp [loadPartialResponse, hemail, ha]
  · intro result
    unfold loadPartialResponse
    split
    · rfl
    · cases hpa : page.assessment with
      | none => simp [hpa]
      | some a =>
        cases result with
        | error e => simp [hpa]
        | ok data =>
          by_cases hlen : data.length > 0 <;>
            simp [renderedInitialValues, hpa, hlen]
  · intro result h
    rcases h with h | h
    · simp [loadPartialResponse, h]
    · unfold loadPartialResponse
      split
      · exact ⟨rfl, rfl⟩
      · simp [h]

/-- Witness of `loadPartialResponse_resolver`: on the example page a lookup that
finds one snapshot sets `saveProgress`. -/
theorem loadPartialResponse_resolver_witness :
    demoPage.email ≠ "" ∧ demoPage.assessment = some demoAssessment ∧
      demoPage.saveProgress = false ∧
      (loadPartialResponse (Except.ok [responseData demoAssessment demoValues])
        demoPage).page.saveProgress = true :=
  ⟨by decide, rfl, rfl,
    ((loadPartialResponse_resolver demoPage).1 demoAssessment
      [responseData demoAssessment demoValues] (by decide) rfl (by simp)).2.1⟩

/-- C22: for every combination of the flags, `ProtectedRoute` redirects to
`/login` when the user is not authenticated, whatever the admin flags are,
redirects to `/` when the user is authenticated, the route requires an admin and
the user is none, and renders its children in all remaining cases. -/
theorem ProtectedRoute_decision (auth : Auth) (requireAdmin : Option Bool)
    (children : Rendered) :
    (auth.isAuthenticated = false →
        ProtectedRoute auth requireAdmin children = Rendered.navigate "/login") ∧
      (auth.isAuthenticated = true → requireAdmin = some true → auth.isAdmin = false →
        ProtectedRoute auth requireAdmin children = Rendered.navigate "/") ∧
      (auth.isAuthenticated = true → (requireAdmin.getD false = false ∨ auth.isAdmin = true) →
        ProtectedRoute auth requireAdmin children = children) := by
  refine ⟨?_, ?_, ?_⟩
  · intro h
    simp [ProtectedRoute, h]
  · intro h1 h2 h3
    simp [ProtectedRoute, h1, h2, h3]
  · intro h1 h2
    rcases h2 with h2 | h2 <;> simp [ProtectedRoute, h1, h2]

/-- Witness of `ProtectedRoute_decision`: an authenticated user who is no admin
is sent to `/` by a route that requires an admin. -/
theorem ProtectedRoute_decision_witness :
    ProtectedRoute { isAuthenticated := true, isAdmin := false } (some true)
        (Rendered.page "AdminDashboardPage") = Rendered.navigate "/" :=
  (ProtectedRoute_decision { isAuthenticated := true, isAdmin := false } (some true)
    (Rendered.page "AdminDashboardPage")).2.1 rfl rfl rfl

/-- C26: for a time limit of m >= 1 minutes the remaining time starts at 60*m
seconds and after k ticks is max(60*m - k, 0), a natural number and so never
negative; the ticks leave the page state as it was, and no tick, the one that
reaches zero included, issues a request or changes anything but the remaining
time. -/
theorem countdown_after_ticks (page : PageState) (m k : Nat) (hm : 1 ≤ m) :
    initialTimeRemaining m = some (60 * m) ∧
      (∃ t : Nat,
        (afterTicks k { page := page, timeRemaining := initialTimeRemaining m }).timeRemaining =
            some t ∧
          (t : Int) = max ((60 * m : Int) - k) 0) ∧
      (afterTicks k { page := page, timeRemaining := initialTimeRemaining m }).page = page ∧
      ∀ s : TimedPage, (timerTick s).2 = [] ∧ (timerTick s).1.page = s.page := by
  have hinit : initialTimeRemaining m = some (60 * m) := by
    have : m ≠ 0 := by omega
    simp [initialTimeRemaining, this, Nat.mul_comm]
  refine ⟨hinit, ⟨60 * m - k, ?_, ?_⟩, ?_, ?_⟩
  · rw [hinit, afterTicks_timeRemaining]
  · omega
  · rw [afterTicks_page]
  · intro s
    exact ⟨rfl, rfl⟩

/-- Witness of `countdown_after_ticks`: one minute, 61 ticks, zero seconds left. -/
theorem countdown_after_ticks_witness :
    (1 : Nat) ≤ 1 ∧
      (afterTicks 61 { page := demoPage, timeRemaining := initialTimeRemaining 1 }).page
        = demoPage ∧
      initialTimeRemaining 1 = some (60 * 1) :=
  have h := countdown_after_ticks demoPage 1 61 (by decide)
  ⟨by decide, h.2.2.1, h.1⟩

/-- C30 (the code at the failing input): the route `/admin/users` is wrapped
with `requireAdmin={false}`, so for an authenticated user who is no admin it
renders `UserManagement`; the four other routes under `/admin` redirect to `/`. -/
theorem adminRoutes_users_not_admin_only :
    adminRoutes.map (fun r => (r.path, r.element)) =
        [("/admin/users", RouteElement.guarded (some false) "UserManagement"),
         ("/admin/assessments", RouteElement.guarded (some true) "AdminAssessmentPage"),
         ("/admin/assessments/:id", RouteElement.guarded (some true) "AdminAssessmentPage"),
         ("/admin/dashboard", RouteElement.guarded (some true) "AdminDashboardPage"),
         ("/admin/stats", RouteElement.guarded (some true) "AssessmentStats")] ∧
      adminRoutes.map (fun r =>
          (r.path, renderElement { isAuthenticated := true, isAdmin := false } r.element)) =
        [("/admin/users", Rendered.page "UserManagement"),
         ("/admin/assessments", Rendered.navigate "/"),
         ("/admin/assessments/:id", Rendered.navigate "/"),
         ("/admin/dashboard", Rendered.navigate "/"),
         ("/admin/stats", Rendered.navigate "/")] := by
  constructor <;> decide

/-- C23: the response interceptor issues a refresh request or replays the
request only on a 401 response to a request whose `_retry` flag is unset; on
every such response it sets the flag, also when no refresh follows; a 401 on a
flagged request and every other error are rejected with the original error, with
no refresh request and nothing changed; and a replayed request carries the flag,
so that an error on the replay is rejected without a refresh or a second replay. -/
theorem responseErrorInterceptor_one_shot (refreshResult : Except String Tokens)
    (client : ClientState) (error : ResponseError) :
    (((responseErrorInterceptor refreshResult client error).refreshCalls ≠ [] ∨
        ∃ cfg, (responseErrorInterceptor refreshResult client error).outcome =
          Interception.replay cfg) →
        error.status = some 401 ∧ error.config._retry = false) ∧
      (error.status = some 401 → error.config._retry = false →
        (responseErrorInterceptor refreshResult client error).originalRequest._retry = true) ∧
      ((error.status ≠ some 401 ∨ error.config._retry = true) →
        (responseErrorInterceptor refreshResult client error).outcome =
            Interception.reject Rejection.original ∧
          (responseErrorInterceptor refreshResult client error).refreshCalls = [] ∧
          (responseErrorInterceptor refreshResult client error).client = client ∧
          (responseErrorInterceptor refreshResult client error).originalRequest =
            error.config) ∧
      (∀ cfg, (responseErrorInterceptor refreshResult client error).outcome =
          Interception.replay cfg →
        cfg._retry = true ∧
          ∀ (refreshResult2 : Except String Tokens) (client2 : ClientState)
            (error2 : ResponseError), error2.config = cfg →
            (responseErrorInterceptor refreshResult2 client2 error2).outcome =
                Interception.reject Rejection.original ∧
              (responseErrorInterceptor refreshResult2 client2 error2).refreshCalls = []) := by
  have hskip : ∀ (r : Except String Tokens) (c : ClientState) (e : ResponseError),
      (e.status ≠ some 401 ∨ e.config._retry = true) →
        responseErrorInterceptor r c e =
          { client := c, originalRequest := e.config, refreshCalls := [],
            outcome := Interception.reject Rejection.original } := by
    intro r c e h
    have hcond : ¬ (e.status = some 401 ∧ e.config._retry = false) := by
      rintro ⟨h1, h2⟩
      rcases h with h | h
      · exact h h1
      · rw [h] at h2
        cases h2
    simp only [responseErrorInterceptor, hcond, if_false]
  have hflagged : ∀ cfg, (responseErrorInterceptor refreshResult client error).outcome =
      Interception.replay cfg → cfg._retry = true := by
    intro cfg hcfg
    unfold responseErrorInterceptor at hcfg
    split at hcfg
    · split at hcfg
      · cases hcfg
      · cases hcfg
      · cases hcfg
      · split at hcfg
        · cases hcfg
        · split at hcfg
          · simp only [Interception.replay.injEq] at hcfg
            rw [← hcfg]
          · cases hcfg
    · cases hcfg
  refine ⟨?_, ?_, ?_, ?_⟩
  · intro h
    by_contra hcon
    have hor : error.status ≠ some 401 ∨ error.config._retry = true := by
      by_cases h1 : error.status = some 401
      · right
        cases hr : error.config._retry
        · exact absurd ⟨h1, hr⟩ hcon
        · rfl
      · exact Or.inl h1
    rw [hskip refreshResult client error hor] at h
    rcases h with h | ⟨cfg, h⟩
    · exact h rfl
    · cases h
  · intro h1 h2
    unfold responseErrorInterceptor
    rw [if_pos ⟨h1, h2⟩]
    split
    · rfl
    · rfl
    · rfl
    · split
      · rfl
      · split <;> rfl
  · intro h
    rw [hskip refreshResult client error h]
    exact ⟨rfl, rfl, rfl, rfl⟩
  · intro cfg hcfg
    refine ⟨hflagged cfg hcfg, ?_⟩
    intro r2 c2 e2 he2
    rw [hskip r2 c2 e2 (Or.inr (by rw [he2]; exact hflagged cfg hcfg))]
    exact ⟨rfl, rfl⟩

/-- Witness of `responseErrorInterceptor_one_shot`: the replay after a successful
refresh carries the flag, and a second 401 on it is rejected. -/
theorem responseErrorInterceptor_one_shot_witness :
    (responseErrorInterceptor (Except.ok ⟨"new-access", "new-refresh"⟩) demoClient
        demoExpired).outcome =
        Interception.replay
          { method := "post", url := "responses/", _retry := true,
            authorization := some "Bearer new-access", csrfToken := some "tok" } ∧
      (responseErrorInterceptor (Except.ok ⟨"newer-access", "newer-refresh"⟩) demoClient
        { status := some 401,
          config := { method := "post", url := "responses/", _retry := true,
                      authorization := some "Bearer new-access", csrfToken := some "tok" },
          message := "Request failed with status code 401" }).outcome =
        Interception.reject Rejection.original :=
  have hout : (responseErrorInterceptor (Except.ok ⟨"new-access", "new-refresh"⟩) demoClient
      demoExpired).outcome =
      Interception.replay
        { method := "post", url := "responses/", _retry := true,
          authorization := some "Bearer new-access", csrfToken := some "tok" } := by
    rfl
  ⟨hout, (((responseErrorInterceptor_one_shot (Except.ok ⟨"new-access", "new-refresh"⟩)
    demoClient demoExpired).2.2.2 _ hout).2 (Except.ok ⟨"newer-access", "newer-refresh"⟩)
      demoClient _ rfl).1⟩

/-- C24: on a 401 response to an unflagged request, with a stored user that has
a refresh token: when the refresh fails the stored user is removed, the location
is set to `/login` and the promise is rejected with the refresh error; when it
succeeds the stored user has the new access and refresh tokens and every other
field as before, and the request is replayed with the new bearer token. -/
theorem responseErrorInterceptor_refresh (client : ClientState) (error : ResponseError)
    (user : StoredUser) (h401 : error.status = some 401)
    (hflag : error.config._retry = false)
    (hstore : client.storage = some (StoredItem.user user))
    (htoken : user.refreshToken ≠ "") :
    (∀ refreshError : String,
        (responseErrorInterceptor (Except.error refreshError) client error).client.storage =
            none ∧
          (responseErrorInterceptor (Except.error refreshError) client error).client.location =
            some "/login" ∧
          (responseErrorInterceptor (Except.error refreshError) client error).outcome =
            Interception.reject (Rejection.refreshError refreshError) ∧
          (responseErrorInterceptor (Except.error refreshError) client error).refreshCalls =
            [user.refreshToken]) ∧
      (∀ tokens : Tokens,
        (responseErrorInterceptor (Except.ok tokens) client error).client.storage =
            some (StoredItem.user
              { token := tokens.access, refreshToken := tokens.refresh, rest := user.rest }) ∧
          (responseErrorInterceptor (Except.ok tokens) client error).client.location =
            client.location ∧
          (responseErrorInterceptor (Except.ok tokens) client error).outcome =
            Interception.replay
              { error.config with
                _retry := true, authorization := some ("Bearer " ++ tokens.access) } ∧
          (responseErrorInterceptor (Except.ok tokens) client error).refreshCalls =
            [user.refreshToken]) := by
  constructor
  · intro refreshError
    simp [responseErrorInterceptor, h401, hflag, hstore, htoken]
  · intro tokens
    simp [responseErrorInterceptor, h401, hflag, hstore, htoken]

/-- Witness of `responseErrorInterceptor_refresh`: a failed refresh clears the
stored user of the example client. -/
theorem responseErrorInterceptor_refresh_witness :
    demoExpired.status = some 401 ∧ demoExpired.config._retry = false ∧
      demoClient.storage = some (StoredItem.user demoUser) ∧ demoUser.refreshToken ≠ "" ∧
      (responseErrorInterceptor (Except.error "expired") demoClient demoExpired).client.storage
        = none :=
  ⟨rfl, rfl, rfl, by decide,
    ((responseErrorInterceptor_refresh demoClient demoExpired demoUser rfl rfl rfl
      (by decide)).1 "expired").1⟩


/-- C25: for every cookie string `getCsrfToken` returns the decoded value of
the first cookie, in the order of the `;`-separated list, that after trimming
starts with `csrftoken=`, and null when there is none (a decoding failure is
passed on); the request interceptor leaves the `X-CSRFToken` header of a GET
request as it was, sets it to the token on any other request for which
`getCsrfToken` returns a non-empty token, and leaves it as it was when the
result is null or empty. -/
theorem getCsrfToken_and_header (decodeURIComponent : String → Except String String)
    (storage : Option StoredItem) (documentCookie : String) (config : RequestConfig) :
    getCsrfToken decodeURIComponent documentCookie =
        (match firstCsrfCookie documentCookie with
         | none => Except.ok none
         | some raw =>
           match decodeURIComponent raw with
           | Except.ok value => Except.ok (some value)
           | Except.error e => Except.error e) ∧
      (config.method = "get" →
        ∃ out, requestInterceptor decodeURIComponent storage documentCookie config =
            Except.ok out ∧ out.csrfToken = config.csrfToken) ∧
      (∀ csrfToken : String, config.method ≠ "get" →
        getCsrfToken decodeURIComponent documentCookie = Except.ok (some csrfToken) →
        csrfToken ≠ "" →
        ∃ out, requestInterceptor decodeURIComponent storage documentCookie config =
            Except.ok out ∧ out.csrfToken = some csrfToken) ∧
      (config.method ≠ "get" →
        (getCsrfToken decodeURIComponent documentCookie = Except.ok none ∨
          getCsrfToken decodeURIComponent documentCookie = Except.ok (some "")) →
        ∃ out, requestInterceptor decodeURIComponent storage documentCookie config =
            Except.ok out ∧ out.csrfToken = config.csrfToken) := by
  refine ⟨?_, ?_, ?_, ?_⟩
  · unfold getCsrfToken
    split
    · next h =>
      rw [h, firstCsrfCookie_empty]
    · rw [cookieLoop_eq]
      simp only [firstCsrfCookie, List.map_map, Function.comp_def]
  · intro hget
    obtain ⟨withAuth, hm, hc, heq⟩ :=
      requestInterceptor_csrf_step decodeURIComponent storage documentCookie config
    rw [heq, hm, if_pos hget]
    exact ⟨withAuth, rfl, hc⟩
  · intro csrfToken hget htok hne
    obtain ⟨withAuth, hm, hc, heq⟩ :=
      requestInterceptor_csrf_step decodeURIComponent storage documentCookie config
    rw [heq, hm, if_neg hget, htok]
    simp only [hne, if_false]
    exact ⟨_, rfl, rfl⟩
  · intro hget hres
    obtain ⟨withAuth, hm, hc, heq⟩ :=
      requestInterceptor_csrf_step decodeURIComponent storage documentCookie config
    rw [heq, hm, if_neg hget]
    rcases hres with hres | hres
    · rw [hres]
      exact ⟨withAuth, rfl, hc⟩
    · rw [hres]
      simp only [if_true]
      exact ⟨withAuth, rfl, hc⟩

/-- Witness of `getCsrfToken_and_header`: a POST request gets the token of the
second cookie; decoding is the identity here. -/
theorem getCsrfToken_and_header_witness :
    getCsrfToken Except.ok "sessionid=1; csrftoken=abc; csrftoken=zzz" =
        Except.ok (some "abc") ∧
      ∃ out, requestInterceptor Except.ok none "sessionid=1; csrftoken=abc; csrftoken=zzz"
          { method := "post", url := "responses/", _retry := false, authorization := none,
            csrfToken := none } = Except.ok out ∧ out.csrfToken = some "abc" :=
  have htok : getCsrfToken Except.ok "sessionid=1; csrftoken=abc; csrftoken=zzz" =
      Except.ok (some "abc") := by rfl
  ⟨htok, (getCsrfToken_and_header Except.ok none "sessionid=1; csrftoken=abc; csrftoken=zzz"
    { method := "post", url := "responses/", _retry := false, authorization := none,
      csrfToken := none }).2.2.1 "abc" (by decide) htok (by decide)⟩

/-- C27 (the code at the failing input): for the example values, whose first
answer is the checkbox selection of `a` and `b`, `handleSaveProgress` sends the
form answers as they are, the first one an array, while `handleSubmit` sends the
serialized answers, the first one the string `a,b`. -/
theorem snapshot_answers_not_serialized :
    (handleSaveProgress (Except.ok ()) demoPage demoValues).calls.length = 1 ∧
      (∀ data, ApiCall.savePartialResponse data ∈
          (handleSaveProgress (Except.ok ()) demoPage demoValues).calls →
        (data.answers[0]?).map (fun a => a.answer_text.isArray) = some true) ∧
      (handleSubmit demoPage demoValues (Except.ok ())).calls.length = 1 ∧
      (∀ data, ApiCall.submitResponse data ∈
          (handleSubmit demoPage demoValues (Except.ok ())).calls →
        (data.answers[0]?).map (fun a => a.answer_text.isArray) = some false ∧
          (data.answers[0]?).map (fun a => a.answer_text.isString) = some true) := by
  refine ⟨rfl, ?_, rfl, ?_⟩
  · intro data hdata
    have hcalls : (handleSaveProgress (Except.ok ()) demoPage demoValues).calls =
        [ApiCall.savePartialResponse
          { assessment := 7, respondent_email := "a@b.co", answers := demoValues.answers }] :=
      rfl
    rw [hcalls] at hdata
    simp only [List.mem_singleton, ApiCall.savePartialResponse.injEq] at hdata
    subst hdata
    rfl
  · intro data hdata
    have hcalls : (handleSubmit demoPage demoValues (Except.ok ())).calls =
        [ApiCall.submitResponse (responseData demoAssessment demoValues)] := rfl
    rw [hcalls] at hdata
    simp only [List.mem_singleton, ApiCall.submitResponse.injEq] at hdata
    subst hdata
    exact ⟨rfl, rfl⟩

/-- C28 (the code at the failing input): the empty selection of the required
checkbox question of the example is serialized to the empty string; with that
saved answer `createInitialValues` yields the selection with the one token that
is the empty string, which passes the validation test and is counted as answered
by `FormProgress`. -/
theorem empty_selection_resumes_nonempty :
    demoCheckbox.required = true ∧ demoCheckbox.question_type = "checkbox" ∧
      (serializeAnswer ⟨1, JsVal.arr []⟩).answer_text.isString = true ∧
      jsJoin [] = "" ∧
      (createInitialValues demoAssessment (some [serializeAnswer ⟨1, JsVal.arr []⟩])
          "").answers.head?.map (fun a => a.answer_text.arrLength) = some 1 ∧
      answerTextTest demoAssessment 1 (JsVal.arr [JsVal.str ""]) = true ∧
      isAnswered (JsVal.arr [JsVal.str ""]) = true ∧
      FormProgress (createInitialValues demoAssessment
          (some [serializeAnswer ⟨1, JsVal.arr []⟩]) "") (some demoAssessment) 0 = 25 := by
  refine ⟨rfl, rfl, rfl, rfl, by decide, by decide, by decide, ?_⟩
  have hc : countAnswered (createInitialValues demoAssessment
      (some [serializeAnswer ⟨1, JsVal.arr []⟩]) "").answers = 1 := by decide
  have hn : demoAssessment.questions.length = 4 := rfl
  simp only [FormProgress, hc, hn]
  rw [if_neg (by decide), percentOf_one_of_four]

/-- C29 (the code at the failing input): three choices are added to a new
question, the first one is removed, which the dialog allows with three choices,
and a choice is added; the values of the choices are then 2, 3 and 3. -/
theorem addChoice_after_removeChoice_duplicates :
    removeEnabled (addChoice (addChoice (addChoice newQuestionDraft))) = true ∧
      ((addChoice (removeChoice (addChoice (addChoice (addChoice newQuestionDraft))) 0)).choices.map
        (fun c => c.value)) = ["2", "3", "3"] ∧
      ¬ ((addChoice (removeChoice (addChoice (addChoice (addChoice newQuestionDraft)))
          0)).choices.map (fun c => c.value)).Nodup := by
  refine ⟨by decide, by decide, by decide⟩

end AssessmentForm
